import Mathlib

/-
Verification of the Lattice platform glue and resource builders:
a shallow embedding of the buffer synthesizer of
src/torii/platform/vendor/lattice/ecp5.py and
src/amaranth/vendor/lattice_machxo_2_3l.py, the resource builders of
src/torii/platform/resources/interface.py, and the priority encoder of
src/nmigen/lib/coding.py, together with theorems about them.
-/

set_option linter.unusedVariables false

namespace Spec2Proof

/-- Signals of the external HDL framework, identified by name and bit
width.  Structural identity of this record stands in for Python object
identity: the framework derives every field of a Pin record from the pin
name, so names identify objects. -/
structure Sig where
  name : String
  width : Nat
deriving DecidableEq

/-- Values that the platform code wires to primitive ports: whole signals,
single-bit subscripts, integer constants, bitwise negation, and
replication. -/
inductive Expr where
  | sig (s : Sig)
  | bit (e : Expr) (i : Nat)
  | const (n : Nat)
  | not (e : Expr)
  | replicate (e : Expr) (n : Nat)
deriving DecidableEq

/-- Width of a value, following the width rules of the framework. -/
def Expr.width : Expr → Nat
  | .sig s => s.width
  | .bit _ _ => 1
  | .const _ => 1
  | .not e => e.width
  | .replicate e n => e.width * n

/-- Value of an instance parameter (p_GSR is a string, p_DIV an integer). -/
inductive PVal where
  | str (s : String)
  | int (n : Int)
deriving DecidableEq

/-- One vendor primitive instance: primitive type name, parameters, and
port connections (port names keep their i_/o_/io_ prefixes). -/
structure Inst where
  prim : String
  params : List (String × PVal)
  ports : List (String × Expr)
deriving DecidableEq

/-- The Module the platform code mutates: a list of primitive instances
added through m.submodules, and a list of combinational assignments
lhs.eq(rhs) added through m.d.comb. -/
structure CState where
  insts : List Inst
  combs : List (Sig × Expr)
deriving DecidableEq

/-- A freshly constructed Module(). -/
def CState.empty : CState := ⟨[], []⟩

def addInst (st : CState) (ins : Inst) : CState :=
  { st with insts := st.insts ++ [ins] }

def addComb (st : CState) (lhs : Sig) (rhs : Expr) : CState :=
  { st with combs := st.combs ++ [(lhs, rhs)] }

/-- Pin direction; the string tests of the source ("i" in pin.dir and so
on) become the predicates below. -/
inductive PinDir where
  | i | o | oe | io
deriving DecidableEq

/-- Embeds the Python test: "i" in pin.dir. -/
def PinDir.hasI : PinDir → Bool
  | .i => true
  | .io => true
  | _ => false

/-- Embeds the Python test: "o" in pin.dir (true for o, oe and io). -/
def PinDir.hasO : PinDir → Bool
  | .o => true
  | .oe => true
  | .io => true
  | _ => false

/-- Embeds the Python test: pin.dir in ("oe", "io"). -/
def PinDir.hasOE : PinDir → Bool
  | .oe => true
  | .io => true
  | _ => false

/-- An abstract pin as handed to the buffer synthesizer by the external
framework: name, declared bit width, direction and gear level (xdr). -/
structure Pin where
  name : String
  width : Nat
  dir : PinDir
  xdr : Nat
deriving DecidableEq

/- Signal fields of the Pin record.  The external framework (lib.io.Pin)
creates them with the widths below: data signals carry the pin width,
clocks and the output enable are single bits. -/

def Pin.i_clk (p : Pin) : Sig := ⟨p.name ++ "__i_clk", 1⟩
def Pin.i_fclk (p : Pin) : Sig := ⟨p.name ++ "__i_fclk", 1⟩
def Pin.o_clk (p : Pin) : Sig := ⟨p.name ++ "__o_clk", 1⟩
def Pin.o_fclk (p : Pin) : Sig := ⟨p.name ++ "__o_fclk", 1⟩
def Pin.i (p : Pin) : Sig := ⟨p.name ++ "__i", p.width⟩
def Pin.i0 (p : Pin) : Sig := ⟨p.name ++ "__i0", p.width⟩
def Pin.i1 (p : Pin) : Sig := ⟨p.name ++ "__i1", p.width⟩
def Pin.i2 (p : Pin) : Sig := ⟨p.name ++ "__i2", p.width⟩
def Pin.i3 (p : Pin) : Sig := ⟨p.name ++ "__i3", p.width⟩
def Pin.i4 (p : Pin) : Sig := ⟨p.name ++ "__i4", p.width⟩
def Pin.i5 (p : Pin) : Sig := ⟨p.name ++ "__i5", p.width⟩
def Pin.i6 (p : Pin) : Sig := ⟨p.name ++ "__i6", p.width⟩
def Pin.o (p : Pin) : Sig := ⟨p.name ++ "__o", p.width⟩
def Pin.o0 (p : Pin) : Sig := ⟨p.name ++ "__o0", p.width⟩
def Pin.o1 (p : Pin) : Sig := ⟨p.name ++ "__o1", p.width⟩
def Pin.o2 (p : Pin) : Sig := ⟨p.name ++ "__o2", p.width⟩
def Pin.o3 (p : Pin) : Sig := ⟨p.name ++ "__o3", p.width⟩
def Pin.o4 (p : Pin) : Sig := ⟨p.name ++ "__o4", p.width⟩
def Pin.o5 (p : Pin) : Sig := ⟨p.name ++ "__o5", p.width⟩
def Pin.o6 (p : Pin) : Sig := ⟨p.name ++ "__o6", p.width⟩
def Pin.oe (p : Pin) : Sig := ⟨p.name ++ "__oe", 1⟩

/- The signals created inside _get_xdr_buffer for the buffered handles,
Signal(pin.width) named pin.name followed by _xdr_i and so on. -/

def Pin.xdr_i (p : Pin) : Sig := ⟨p.name ++ "_xdr_i", p.width⟩
def Pin.xdr_o (p : Pin) : Sig := ⟨p.name ++ "_xdr_o", p.width⟩
def Pin.xdr_t (p : Pin) : Sig := ⟨p.name ++ "_xdr_t", p.width⟩
/-- The MachXO2/3L platform allocates its tristate handle as Signal(1). -/
def Pin.xdr_t1 (p : Pin) : Sig := ⟨p.name ++ "_xdr_t", 1⟩

/-- The physical port record a pin is bound to: single-ended ports expose
io, differential ports expose the p/n pair. -/
structure Port where
  io : Sig
  p : Sig
  n : Sig
deriving DecidableEq

/-- Embeds get_ineg of both platforms: when invert is set, allocate the
auxiliary signal (Signal.like with suffix _n), drive the caller-visible
signal from its negation, and return the auxiliary signal for the
register stage to fill; otherwise return the original signal. -/
def get_ineg (st : CState) (z : Sig) (invert : Bool) : Sig × CState :=
  if invert then
    let a : Sig := ⟨z.name ++ "_n", z.width⟩
    (a, addComb st z (.not (.sig a)))
  else
    (z, st)

/-- Embeds get_oneg of both platforms: when invert is set, allocate the
auxiliary signal, drive it from the negation of the caller-visible
signal, and return it; otherwise return the original signal. -/
def get_oneg (st : CState) (a : Sig) (invert : Bool) : Sig × CState :=
  if invert then
    let z : Sig := ⟨a.name ++ "_n", a.width⟩
    (z, addComb st z (.not (.sig a)))
  else
    (a, st)

/-- Maps get_ineg or get_oneg over a list of phase signals, threading the
module state, in source order. -/
def negAll (f : CState → Sig → Bool → Sig × CState) (st : CState)
    (zs : List Sig) (invert : Bool) : List Sig × CState :=
  match zs with
  | [] => ([], st)
  | z :: rest =>
      let (a, st) := f st z invert
      let (as, st) := negAll f st rest invert
      (a :: as, st)

namespace ECP5

/-- One IFS1P3DX input register per bit of q (get_ireg). -/
def get_ireg (st : CState) (clk d q : Sig) : CState :=
  { st with insts := st.insts ++ (List.range q.width).map (fun bit =>
      ⟨"IFS1P3DX", [],
        [("i_SCLK", .sig clk), ("i_SP", .const 1), ("i_CD", .const 0),
         ("i_D", .bit (.sig d) bit), ("o_Q", .bit (.sig q) bit)]⟩) }

/-- One OFS1P3DX output register per bit of q (get_oreg). -/
def get_oreg (st : CState) (clk d q : Sig) : CState :=
  { st with insts := st.insts ++ (List.range q.width).map (fun bit =>
      ⟨"OFS1P3DX", [],
        [("i_SCLK", .sig clk), ("i_SP", .const 1), ("i_CD", .const 0),
         ("i_D", .bit (.sig d) bit), ("o_Q", .bit (.sig q) bit)]⟩) }

/-- One OFS1P3DX tristate-enable register per bit of q; the data input is
the whole oe expression, not indexed (get_oereg). -/
def get_oereg (st : CState) (clk : Sig) (oe : Expr) (q : Sig) : CState :=
  { st with insts := st.insts ++ (List.range q.width).map (fun bit =>
      ⟨"OFS1P3DX", [],
        [("i_SCLK", .sig clk), ("i_SP", .const 1), ("i_CD", .const 0),
         ("i_D", oe), ("o_Q", .bit (.sig q) bit)]⟩) }

/-- One IDDRX1F dual-edge capture register per bit of d (get_iddr). -/
def get_iddr (st : CState) (sclk d q0 q1 : Sig) : CState :=
  { st with insts := st.insts ++ (List.range d.width).map (fun bit =>
      ⟨"IDDRX1F", [],
        [("i_SCLK", .sig sclk), ("i_RST", .const 0),
         ("i_D", .bit (.sig d) bit),
         ("o_Q0", .bit (.sig q0) bit), ("o_Q1", .bit (.sig q1) bit)]⟩) }

/-- One IDDRX2F quad capture register per bit of d (get_iddrx2). -/
def get_iddrx2 (st : CState) (sclk eclk d q0 q1 q2 q3 : Sig) : CState :=
  { st with insts := st.insts ++ (List.range d.width).map (fun bit =>
      ⟨"IDDRX2F", [],
        [("i_SCLK", .sig sclk), ("i_ECLK", .sig eclk), ("i_RST", .const 0),
         ("i_D", .bit (.sig d) bit),
         ("o_Q0", .bit (.sig q0) bit), ("o_Q1", .bit (.sig q1) bit),
         ("o_Q2", .bit (.sig q2) bit), ("o_Q3", .bit (.sig q3) bit)]⟩) }

/-- One IDDR71B septuple capture register per bit of d (get_iddr71b). -/
def get_iddr71b (st : CState) (sclk eclk d q0 q1 q2 q3 q4 q5 q6 : Sig) : CState :=
  { st with insts := st.insts ++ (List.range d.width).map (fun bit =>
      ⟨"IDDR71B", [],
        [("i_SCLK", .sig sclk), ("i_ECLK", .sig eclk), ("i_RST", .const 0),
         ("i_D", .bit (.sig d) bit),
         ("o_Q0", .bit (.sig q0) bit), ("o_Q1", .bit (.sig q1) bit),
         ("o_Q2", .bit (.sig q2) bit), ("o_Q3", .bit (.sig q3) bit),
         ("o_Q4", .bit (.sig q4) bit), ("o_Q5", .bit (.sig q5) bit),
         ("o_Q6", .bit (.sig q6) bit)]⟩) }

/-- One ODDRX1F dual-edge drive register per bit of q (get_oddr). -/
def get_oddr (st : CState) (sclk d0 d1 q : Sig) : CState :=
  { st with insts := st.insts ++ (List.range q.width).map (fun bit =>
      ⟨"ODDRX1F", [],
        [("i_SCLK", .sig sclk), ("i_RST", .const 0),
         ("i_D0", .bit (.sig d0) bit), ("i_D1", .bit (.sig d1) bit),
         ("o_Q", .bit (.sig q) bit)]⟩) }

/-- One ODDRX2F quad drive register per bit of q (get_oddrx2). -/
def get_oddrx2 (st : CState) (sclk eclk d0 d1 d2 d3 q : Sig) : CState :=
  { st with insts := st.insts ++ (List.range q.width).map (fun bit =>
      ⟨"ODDRX2F", [],
        [("i_SCLK", .sig sclk), ("i_ECLK", .sig eclk), ("i_RST", .const 0),
         ("i_D0", .bit (.sig d0) bit), ("i_D1", .bit (.sig d1) bit),
         ("i_D2", .bit (.sig d2) bit), ("i_D3", .bit (.sig d3) bit),
         ("o_Q", .bit (.sig q) bit)]⟩) }

/-- One ODDR71B septuple drive register per bit of q (get_oddr71b). -/
def get_oddr71b (st : CState) (sclk eclk d0 d1 d2 d3 d4 d5 d6 q : Sig) : CState :=
  { st with insts := st.insts ++ (List.range q.width).map (fun bit =>
      ⟨"ODDR71B", [],
        [("i_SCLK", .sig sclk), ("i_ECLK", .sig eclk), ("i_RST", .const 0),
         ("i_D0", .bit (.sig d0) bit), ("i_D1", .bit (.sig d1) bit),
         ("i_D2", .bit (.sig d2) bit), ("i_D3", .bit (.sig d3) bit),
         ("i_D4", .bit (.sig d4) bit), ("i_D5", .bit (.sig d5) bit),
         ("i_D6", .bit (.sig d6) bit),
         ("o_Q", .bit (.sig q) bit)]⟩) }

/-- Embeds ECP5Platform._get_xdr_buffer.  The list getD defaults are never
reached: the phase lists built by the first block always have the length
the matching dispatch branch reads. -/
def xdrBuffer (m : CState) (pin : Pin) (i_invert o_invert : Bool) :
    Except String ((Option Expr × Option Expr × Option Expr) × CState) :=
  let (pis, m) :=
    if pin.dir.hasI then
      if pin.xdr < 2 then
        negAll get_ineg m [pin.i] i_invert
      else if pin.xdr = 2 then
        negAll get_ineg m [pin.i0, pin.i1] i_invert
      else if pin.xdr = 4 then
        negAll get_ineg m [pin.i0, pin.i1, pin.i2, pin.i3] i_invert
      else if pin.xdr = 7 then
        negAll get_ineg m [pin.i0, pin.i1, pin.i2, pin.i3, pin.i4, pin.i5, pin.i6] i_invert
      else ([], m)
    else ([], m)
  let (pos, m) :=
    if pin.dir.hasO then
      if pin.xdr < 2 then
        negAll get_oneg m [pin.o] o_invert
      else if pin.xdr = 2 then
        negAll get_oneg m [pin.o0, pin.o1] o_invert
      else if pin.xdr = 4 then
        negAll get_oneg m [pin.o0, pin.o1, pin.o2, pin.o3] o_invert
      else if pin.xdr = 7 then
        negAll get_oneg m [pin.o0, pin.o1, pin.o2, pin.o3, pin.o4, pin.o5, pin.o6] o_invert
      else ([], m)
    else ([], m)
  let iH : Option Expr := if pin.dir.hasI then some (.sig pin.xdr_i) else none
  let oH : Option Expr := if pin.dir.hasO then some (.sig pin.xdr_o) else none
  let tH : Option Expr := if pin.dir.hasOE then some (.sig pin.xdr_t) else none
  if pin.xdr = 0 then
    .ok ((if pin.dir.hasI then some (.sig (pis.getD 0 pin.i)) else none,
          if pin.dir.hasO then some (.sig (pos.getD 0 pin.o)) else none,
          if pin.dir.hasOE then some (.not (.replicate (.sig pin.oe) pin.width)) else none), m)
  else if pin.xdr = 1 then
    let m := if pin.dir.hasI then get_ireg m pin.i_clk pin.xdr_i (pis.getD 0 pin.i) else m
    let m := if pin.dir.hasO then get_oreg m pin.o_clk (pos.getD 0 pin.o) pin.xdr_o else m
    let m := if pin.dir.hasOE then get_oereg m pin.o_clk (.not (.sig pin.oe)) pin.xdr_t else m
    .ok ((iH, oH, tH), m)
  else if pin.xdr = 2 then
    let m := if pin.dir.hasI then
        get_iddr m pin.i_clk pin.xdr_i (pis.getD 0 pin.i) (pis.getD 1 pin.i) else m
    let m := if pin.dir.hasO then
        get_oddr m pin.o_clk (pos.getD 0 pin.o) (pos.getD 1 pin.o) pin.xdr_o else m
    let m := if pin.dir.hasOE then get_oereg m pin.o_clk (.not (.sig pin.oe)) pin.xdr_t else m
    .ok ((iH, oH, tH), m)
  else if pin.xdr = 4 then
    let m := if pin.dir.hasI then
        get_iddrx2 m pin.i_clk pin.i_fclk pin.xdr_i
          (pis.getD 0 pin.i) (pis.getD 1 pin.i) (pis.getD 2 pin.i) (pis.getD 3 pin.i) else m
    let m := if pin.dir.hasO then
        get_oddrx2 m pin.o_clk pin.o_fclk
          (pos.getD 0 pin.o) (pos.getD 1 pin.o) (pos.getD 2 pin.o) (pos.getD 3 pin.o)
          pin.xdr_o else m
    let m := if pin.dir.hasOE then get_oereg m pin.o_clk (.not (.sig pin.oe)) pin.xdr_t else m
    .ok ((iH, oH, tH), m)
  else if pin.xdr = 7 then
    let m := if pin.dir.hasI then
        get_iddr71b m pin.i_clk pin.i_fclk pin.xdr_i
          (pis.getD 0 pin.i) (pis.getD 1 pin.i) (pis.getD 2 pin.i) (pis.getD 3 pin.i)
          (pis.getD 4 pin.i) (pis.getD 5 pin.i) (pis.getD 6 pin.i) else m
    let m := if pin.dir.hasO then
        get_oddr71b m pin.o_clk pin.o_fclk
          (pos.getD 0 pin.o) (pos.getD 1 pin.o) (pos.getD 2 pin.o) (pos.getD 3 pin.o)
          (pos.getD 4 pin.o) (pos.getD 5 pin.o) (pos.getD 6 pin.o)
          pin.xdr_o else m
    let m := if pin.dir.hasOE then get_oereg m pin.o_clk (.not (.sig pin.oe)) pin.xdr_t else m
    .ok ((iH, oH, tH), m)
  else
    .error ("Invalid gearing " ++ toString pin.xdr ++ " for pin " ++ pin.name
      ++ ", must be one of, 0, 1, 2, 4, or 7")

/-- Embeds ECP5Platform.get_input: run the gear buffer with i_invert, then
one IB input buffer primitive per bit connecting port.io to the buffered
input handle.  A missing handle would be a None subscript in Python. -/
def get_input (pin : Pin) (port : Port) (invert : Bool) : Except String CState := do
  let ((iR, _oR, _tR), m) ← xdrBuffer CState.empty pin invert false
  match iR with
  | some iE =>
      .ok { m with insts := m.insts ++ (List.range pin.width).map (fun bit =>
        ⟨"IB", [], [("i_I", .bit (.sig port.io) bit), ("o_O", .bit iE bit)]⟩) }
  | none => .error "TypeError"

/-- Embeds ECP5Platform.get_output: gear buffer with o_invert, then one OB
output buffer primitive per bit. -/
def get_output (pin : Pin) (port : Port) (invert : Bool) : Except String CState := do
  let ((_iR, oR, _tR), m) ← xdrBuffer CState.empty pin false invert
  match oR with
  | some oE =>
      .ok { m with insts := m.insts ++ (List.range pin.width).map (fun bit =>
        ⟨"OB", [], [("i_I", .bit oE bit), ("o_O", .bit (.sig port.io) bit)]⟩) }
  | none => .error "TypeError"

/-- Embeds ECP5Platform.get_tristate: gear buffer with o_invert, then one
OBZ tristate buffer primitive per bit, with the enable taken bitwise from
the tristate handle. -/
def get_tristate (pin : Pin) (port : Port) (invert : Bool) : Except String CState := do
  let ((_iR, oR, tR), m) ← xdrBuffer CState.empty pin false invert
  match oR, tR with
  | some oE, some tE =>
      .ok { m with insts := m.insts ++ (List.range pin.width).map (fun bit =>
        ⟨"OBZ", [], [("i_T", .bit tE bit), ("i_I", .bit oE bit),
                     ("o_O", .bit (.sig port.io) bit)]⟩) }
  | _, _ => .error "TypeError"

/-- Embeds ECP5Platform.get_input_output: gear buffer with both inverts,
then one BB bidirectional buffer primitive per bit. -/
def get_input_output (pin : Pin) (port : Port) (invert : Bool) : Except String CState := do
  let ((iR, oR, tR), m) ← xdrBuffer CState.empty pin invert invert
  match iR, oR, tR with
  | some iE, some oE, some tE =>
      .ok { m with insts := m.insts ++ (List.range pin.width).map (fun bit =>
        ⟨"BB", [], [("i_T", .bit tE bit), ("i_I", .bit oE bit),
                    ("o_O", .bit iE bit), ("io_B", .bit (.sig port.io) bit)]⟩) }
  | _, _, _ => .error "TypeError"

/-- Embeds ECP5Platform.get_diff_input: as get_input but connected to the
positive leg port.p. -/
def get_diff_input (pin : Pin) (port : Port) (invert : Bool) : Except String CState := do
  let ((iR, _oR, _tR), m) ← xdrBuffer CState.empty pin invert false
  match iR with
  | some iE =>
      .ok { m with insts := m.insts ++ (List.range pin.width).map (fun bit =>
        ⟨"IB", [], [("i_I", .bit (.sig port.p) bit), ("o_O", .bit iE bit)]⟩) }
  | none => .error "TypeError"

/-- Embeds ECP5Platform.get_diff_output. -/
def get_diff_output (pin : Pin) (port : Port) (invert : Bool) : Except String CState := do
  let ((_iR, oR, _tR), m) ← xdrBuffer CState.empty pin false invert
  match oR with
  | some oE =>
      .ok { m with insts := m.insts ++ (List.range pin.width).map (fun bit =>
        ⟨"OB", [], [("i_I", .bit oE bit), ("o_O", .bit (.sig port.p) bit)]⟩) }
  | none => .error "TypeError"

/-- Embeds ECP5Platform.get_diff_tristate. -/
def get_diff_tristate (pin : Pin) (port : Port) (invert : Bool) : Except String CState := do
  let ((_iR, oR, tR), m) ← xdrBuffer CState.empty pin false invert
  match oR, tR with
  | some oE, some tE =>
      .ok { m with insts := m.insts ++ (List.range pin.width).map (fun bit =>
        ⟨"OBZ", [], [("i_T", .bit tE bit), ("i_I", .bit oE bit),
                     ("o_O", .bit (.sig port.p) bit)]⟩) }
  | _, _ => .error "TypeError"

/-- Embeds ECP5Platform.get_diff_input_output. -/
def get_diff_input_output (pin : Pin) (port : Port) (invert : Bool) : Except String CState := do
  let ((iR, oR, tR), m) ← xdrBuffer CState.empty pin invert invert
  match iR, oR, tR with
  | some iE, some oE, some tE =>
      .ok { m with insts := m.insts ++ (List.range pin.width).map (fun bit =>
        ⟨"BB", [], [("i_T", .bit tE bit), ("i_I", .bit oE bit),
                    ("o_O", .bit iE bit), ("io_B", .bit (.sig port.p) bit)]⟩) }
  | _, _, _ => .error "TypeError"

end ECP5

namespace MachXO

/-- One IFS1P3DX input register per bit of q (get_ireg). -/
def get_ireg (st : CState) (clk d q : Sig) : CState :=
  { st with insts := st.insts ++ (List.range q.width).map (fun bit =>
      ⟨"IFS1P3DX", [],
        [("i_SCLK", .sig clk), ("i_SP", .const 1), ("i_CD", .const 0),
         ("i_D", .bit (.sig d) bit), ("o_Q", .bit (.sig q) bit)]⟩) }

/-- One OFS1P3DX output register per bit of q (get_oreg).  The MachXO2/3L
platform also uses this for the tristate enable, passing the whole
expression not-oe as d, which the loop then subscripts; d is therefore an
expression here. -/
def get_oreg (st : CState) (clk : Sig) (d : Expr) (q : Sig) : CState :=
  { st with insts := st.insts ++ (List.range q.width).map (fun bit =>
      ⟨"OFS1P3DX", [],
        [("i_SCLK", .sig clk), ("i_SP", .const 1), ("i_CD", .const 0),
         ("i_D", .bit d bit), ("o_Q", .bit (.sig q) bit)]⟩) }

/-- One IDDRXE dual-edge capture register per bit of d (get_iddr). -/
def get_iddr (st : CState) (sclk d q0 q1 : Sig) : CState :=
  { st with insts := st.insts ++ (List.range d.width).map (fun bit =>
      ⟨"IDDRXE", [],
        [("i_SCLK", .sig sclk), ("i_RST", .const 0),
         ("i_D", .bit (.sig d) bit),
         ("o_Q0", .bit (.sig q0) bit), ("o_Q1", .bit (.sig q1) bit)]⟩) }

/-- One ODDRXE dual-edge drive register per bit of q (get_oddr). -/
def get_oddr (st : CState) (sclk d0 d1 q : Sig) : CState :=
  { st with insts := st.insts ++ (List.range q.width).map (fun bit =>
      ⟨"ODDRXE", [],
        [("i_SCLK", .sig sclk), ("i_RST", .const 0),
         ("i_D0", .bit (.sig d0) bit), ("i_D1", .bit (.sig d1) bit),
         ("o_Q", .bit (.sig q) bit)]⟩) }

/-- Embeds LatticeMachXO2Or3LPlatform._get_xdr_buffer.  The tristate
handle is allocated as Signal(1) whatever the pin width, and only gear
levels 0, 1 and 2 are dispatched; anything else hits a bare assert False,
embedded as the AssertionError outcome. -/
def xdrBuffer (m : CState) (pin : Pin) (i_invert o_invert : Bool) :
    Except String ((Option Expr × Option Expr × Option Expr) × CState) :=
  let (pis, m) :=
    if pin.dir.hasI then
      if pin.xdr < 2 then
        negAll get_ineg m [pin.i] i_invert
      else if pin.xdr = 2 then
        negAll get_ineg m [pin.i0, pin.i1] i_invert
      else ([], m)
    else ([], m)
  let (pos, m) :=
    if pin.dir.hasO then
      if pin.xdr < 2 then
        negAll get_oneg m [pin.o] o_invert
      else if pin.xdr = 2 then
        negAll get_oneg m [pin.o0, pin.o1] o_invert
      else ([], m)
    else ([], m)
  let iH : Option Expr := if pin.dir.hasI then some (.sig pin.xdr_i) else none
  let oH : Option Expr := if pin.dir.hasO then some (.sig pin.xdr_o) else none
  let tH : Option Expr := if pin.dir.hasOE then some (.sig pin.xdr_t1) else none
  if pin.xdr = 0 then
    .ok ((if pin.dir.hasI then some (.sig (pis.getD 0 pin.i)) else none,
          if pin.dir.hasO then some (.sig (pos.getD 0 pin.o)) else none,
          if pin.dir.hasOE then some (.not (.sig pin.oe)) else none), m)
  else if pin.xdr = 1 then
    let m := if pin.dir.hasI then get_ireg m pin.i_clk pin.xdr_i (pis.getD 0 pin.i) else m
    let m := if pin.dir.hasO then
        get_oreg m pin.o_clk (.sig (pos.getD 0 pin.o)) pin.xdr_o else m
    let m := if pin.dir.hasOE then get_oreg m pin.o_clk (.not (.sig pin.oe)) pin.xdr_t1 else m
    .ok ((iH, oH, tH), m)
  else if pin.xdr = 2 then
    let m := if pin.dir.hasI then
        get_iddr m pin.i_clk pin.xdr_i (pis.getD 0 pin.i) (pis.getD 1 pin.i) else m
    let m := if pin.dir.hasO then
        get_oddr m pin.o_clk (pos.getD 0 pin.o) (pos.getD 1 pin.o) pin.xdr_o else m
    let m := if pin.dir.hasOE then get_oreg m pin.o_clk (.not (.sig pin.oe)) pin.xdr_t1 else m
    .ok ((iH, oH, tH), m)
  else
    .error "AssertionError"

/-- Embeds LatticeMachXO2Or3LPlatform.get_input. -/
def get_input (pin : Pin) (port : Port) (invert : Bool) : Except String CState := do
  let ((iR, _oR, _tR), m) ← xdrBuffer CState.empty pin invert false
  match iR with
  | some iE =>
      .ok { m with insts := m.insts ++ (List.range pin.width).map (fun bit =>
        ⟨"IB", [], [("i_I", .bit (.sig port.io) bit), ("o_O", .bit iE bit)]⟩) }
  | none => .error "TypeError"

/-- Embeds LatticeMachXO2Or3LPlatform.get_output. -/
def get_output (pin : Pin) (port : Port) (invert : Bool) : Except String CState := do
  let ((_iR, oR, _tR), m) ← xdrBuffer CState.empty pin false invert
  match oR with
  | some oE =>
      .ok { m with insts := m.insts ++ (List.range pin.width).map (fun bit =>
        ⟨"OB", [], [("i_I", .bit oE bit), ("o_O", .bit (.sig port.io) bit)]⟩) }
  | none => .error "TypeError"

/-- Embeds LatticeMachXO2Or3LPlatform.get_tristate: note i_T is connected
to the whole single-bit tristate handle, not a subscript of it. -/
def get_tristate (pin : Pin) (port : Port) (invert : Bool) : Except String CState := do
  let ((_iR, oR, tR), m) ← xdrBuffer CState.empty pin false invert
  match oR, tR with
  | some oE, some tE =>
      .ok { m with insts := m.insts ++ (List.range pin.width).map (fun bit =>
        ⟨"OBZ", [], [("i_T", tE), ("i_I", .bit oE bit),
                     ("o_O", .bit (.sig port.io) bit)]⟩) }
  | _, _ => .error "TypeError"

/-- Embeds LatticeMachXO2Or3LPlatform.get_input_output: i_T is the whole
tristate handle. -/
def get_input_output (pin : Pin) (port : Port) (invert : Bool) : Except String CState := do
  let ((iR, oR, tR), m) ← xdrBuffer CState.empty pin invert invert
  match iR, oR, tR with
  | some iE, some oE, some tE =>
      .ok { m with insts := m.insts ++ (List.range pin.width).map (fun bit =>
        ⟨"BB", [], [("i_T", tE), ("i_I", .bit oE bit),
                    ("o_O", .bit iE bit), ("io_B", .bit (.sig port.io) bit)]⟩) }
  | _, _, _ => .error "TypeError"

/-- Embeds LatticeMachXO2Or3LPlatform.get_diff_input. -/
def get_diff_input (pin : Pin) (port : Port) (invert : Bool) : Except String CState := do
  let ((iR, _oR, _tR), m) ← xdrBuffer CState.empty pin invert false
  match iR with
  | some iE =>
      .ok { m with insts := m.insts ++ (List.range pin.width).map (fun bit =>
        ⟨"IB", [], [("i_I", .bit (.sig port.p) bit), ("o_O", .bit iE bit)]⟩) }
  | none => .error "TypeError"

/-- Embeds LatticeMachXO2Or3LPlatform.get_diff_output. -/
def get_diff_output (pin : Pin) (port : Port) (invert : Bool) : Except String CState := do
  let ((_iR, oR, _tR), m) ← xdrBuffer CState.empty pin false invert
  match oR with
  | some oE =>
      .ok { m with insts := m.insts ++ (List.range pin.width).map (fun bit =>
        ⟨"OB", [], [("i_I", .bit oE bit), ("o_O", .bit (.sig port.p) bit)]⟩) }
  | none => .error "TypeError"

/-- Embeds LatticeMachXO2Or3LPlatform.get_diff_tristate. -/
def get_diff_tristate (pin : Pin) (port : Port) (invert : Bool) : Except String CState := do
  let ((_iR, oR, tR), m) ← xdrBuffer CState.empty pin false invert
  match oR, tR with
  | some oE, some tE =>
      .ok { m with insts := m.insts ++ (List.range pin.width).map (fun bit =>
        ⟨"OBZ", [], [("i_T", tE), ("i_I", .bit oE bit),
                     ("o_O", .bit (.sig port.p) bit)]⟩) }
  | _, _ => .error "TypeError"

/-- Embeds LatticeMachXO2Or3LPlatform.get_diff_input_output. -/
def get_diff_input_output (pin : Pin) (port : Port) (invert : Bool) : Except String CState := do
  let ((iR, oR, tR), m) ← xdrBuffer CState.empty pin invert invert
  match iR, oR, tR with
  | some iE, some oE, some tE =>
      .ok { m with insts := m.insts ++ (List.range pin.width).map (fun bit =>
        ⟨"BB", [], [("i_T", tE), ("i_I", .bit oE bit),
                    ("o_O", .bit iE bit), ("io_B", .bit (.sig port.p) bit)]⟩) }
  | _, _, _ => .error "TypeError"

end MachXO

namespace ECP5

/-- The _differential_io_types catalog of ECP5Platform. -/
def differential_io_types : List String :=
  ["BLVDS25", "BLVDS25E", "HSUL12D", "LVCMOS18D", "LVCMOS25D", "LVCMOS33D",
   "LVDS", "LVDS25E", "LVPECL33", "LVPECL33E", "LVTTL33D", "MLVDS", "MLVDS25E",
   "SLVS", "SSTL135D_I", "SSTL135D_II", "SSTL15D_I", "SSTL15D_II", "SSTL18D_I",
   "SSTL18D_II", "SUBLVDS"]

/-- Embeds ECP5Platform.should_skip_port_component: attrs is the attribute
dictionary, looked up at key IO_TYPE with default LVCMOS25; the port
argument of the source is unused there and omitted here. -/
def should_skip_port_component (attrs : List (String × String))
    (component : String) : Bool :=
  if differential_io_types.contains (((attrs.lookup "IO_TYPE").getD "LVCMOS25"))
      && component == "n" then
    true
  else
    false

/-- The class-level attribute: toolchain = None, selected when creating
the platform. -/
def toolchain_class_default : Option String := none

/-- Python repr of the toolchain attribute inside the error message (None
when the attribute was never assigned). -/
def pyShow : Option String → String
  | none => "None"
  | some s => s

/-- Embeds ECP5Platform.init: the guard tests self.toolchain, which still
holds the class default at that point, and only afterwards assigns the
toolchain argument to self.toolchain.  The result is the final value of
self.toolchain. -/
def init (self_toolchain : Option String) (toolchain : String) :
    Except String (Option String) :=
  if ¬(self_toolchain = some "Trellis" ∨ self_toolchain = some "Diamond") then
    .error ("Unknown toolchain " ++ pyShow self_toolchain
      ++ ", must be either Trellis, or Diamond")
  else
    .ok (some toolchain)

def trellis_required_tools : List String := ["yosys", "nextpnr-ecp5", "ecppack"]

def diamond_required_tools : List String := ["pnmainc", "ddtcmd"]

/-- The file and command template sets are large Jinja text tables; the
properties only ever select one of the two per kind, so each set is
tracked as an atom. -/
inductive TemplateSet where
  | trellisFiles | diamondFiles | trellisCommands | diamondCommands
deriving DecidableEq

/-- Embeds the required_tools property (guard plus two-way selection). -/
def required_tools (self_toolchain : Option String) :
    Except String (List String) :=
  if ¬(self_toolchain = some "Trellis" ∨ self_toolchain = some "Diamond") then
    .error ("Unknown toolchain " ++ pyShow self_toolchain
      ++ ", must be either Trellis, or Diamond")
  else if self_toolchain = some "Trellis" then
    .ok trellis_required_tools
  else
    .ok diamond_required_tools

/-- Embeds the file_templates property. -/
def file_templates (self_toolchain : Option String) :
    Except String TemplateSet :=
  if ¬(self_toolchain = some "Trellis" ∨ self_toolchain = some "Diamond") then
    .error ("Unknown toolchain " ++ pyShow self_toolchain
      ++ ", must be either Trellis, or Diamond")
  else if self_toolchain = some "Trellis" then
    .ok .trellisFiles
  else
    .ok .diamondFiles

/-- Embeds the command_templates property. -/
def command_templates (self_toolchain : Option String) :
    Except String TemplateSet :=
  if ¬(self_toolchain = some "Trellis" ∨ self_toolchain = some "Diamond") then
    .error ("Unknown toolchain " ++ pyShow self_toolchain
      ++ ", must be either Trellis, or Diamond")
  else if self_toolchain = some "Trellis" then
    .ok .trellisCommands
  else
    .ok .diamondCommands

/-- Platform attributes consulted by the clocking logic: default_clk,
default_rst, and the user-set oscg_div attribute (none when the attribute
is absent; the isinstance int check of the source is subsumed by the Int
type here). -/
structure OscgConfig where
  default_clk : Option String
  default_rst : Option String
  oscg_div : Option Int
deriving DecidableEq

/-- Embeds the OSCG branch of ECP5Platform.default_clk_constraint, which
returns Clock(310e6 / self.oscg_div); frequencies are exact rationals
here.  none means the property defers to the external base class (or, for
the divider, that reading self.oscg_div raises AttributeError). -/
def default_clk_constraint (cfg : OscgConfig) : Option (Except String ℚ) :=
  if cfg.default_clk = some "OSCG" then
    some (match cfg.oscg_div with
      | none => .error "AttributeError"
      | some d => .ok ((310000000 : ℚ) / (d : ℚ)))
  else
    none

/-- Embeds ECP5Platform.create_missing_domain for the sync domain: the
OSCG validity checks, the OSCG oscillator instance, and the GSR reset
synchronizer.  clk_i names the Signal() local; a non-OSCG default clock
or a default reset is requested from the external platform and modelled
as the correspondingly named input signal.  The domain and clock-signal
bookkeeping of the tail of the method lives in the external framework and
is not tracked.  Returns none when the method falls through (wrong name
or no default clock). -/
def create_missing_domain (cfg : OscgConfig) (name : String) :
    Except String (Option CState) :=
  if name = "sync" ∧ cfg.default_clk.isSome then do
    let m := CState.empty
    let (clk_i, m) ←
      if cfg.default_clk = some "OSCG" then
        match cfg.oscg_div with
        | none =>
            .error "OSCG divider (oscg_div) must be an integer between 2 and 128"
        | some d =>
            if d < 2 ∨ d > 128 then
              .error ("OSCG divider (oscg_div) must be an integer between 2 and 128, not "
                ++ toString d)
            else
              let clk_i : Sig := ⟨"clk_i", 1⟩
              .ok (clk_i, addInst m ⟨"OSCG", [("p_DIV", .int d)],
                    [("o_OSC", .sig clk_i)]⟩)
      else
        .ok ((⟨"default_clk_i", 1⟩ : Sig), m)
    let rst_i : Expr :=
      if cfg.default_rst.isSome then .sig ⟨"default_rst_i", 1⟩ else .const 0
    let gsr0 : Sig := ⟨"gsr0", 1⟩
    let gsr1 : Sig := ⟨"gsr1", 1⟩
    let m := addInst m ⟨"FD1S3AX", [("p_GSR", .str "DISABLED")],
      [("i_CK", .sig clk_i), ("i_D", .not rst_i), ("o_Q", .sig gsr0)]⟩
    let m := addInst m ⟨"FD1S3AX", [("p_GSR", .str "DISABLED")],
      [("i_CK", .sig clk_i), ("i_D", .sig gsr0), ("o_Q", .sig gsr1)]⟩
    let m := addInst m ⟨"SGSR", [],
      [("i_CLK", .sig clk_i), ("i_GSR", .sig gsr1)]⟩
    .ok (some m)
  else
    .ok none

end ECP5

namespace MachXO

/-- The _differential_io_types catalog of LatticeMachXO2Or3LPlatform. -/
def differential_io_types : List String :=
  ["LVDS25", "LVDS25E", "RSDS25", "RSDS25E", "BLVDS25", "BLVDS25E", "MLVDS25",
   "MLVDS25E", "LVPECL33", "LVPECL33E", "SSTL25D_I", "SSTL25D_II", "SSTL18D_I",
   "SSTL18D_II", "HSTL18D_I", "HSTL18D_II", "LVTTL33D", "LVCMOS33D", "LVCMOS25D",
   "LVCMOS18D", "LVCMOS15D", "LVCMOS12D", "MIPI"]

/-- Embeds LatticeMachXO2Or3LPlatform.should_skip_port_component. -/
def should_skip_port_component (attrs : List (String × String))
    (component : String) : Bool :=
  if differential_io_types.contains (((attrs.lookup "IO_TYPE").getD "LVCMOS25"))
      && component == "n" then
    true
  else
    false

end MachXO

/- Resource builders (src/torii/platform/resources/interface.py).  Pin
declarations keep the pin string, direction, polarity and width
assertion; the conn argument changes only how the external framework
resolves pin strings and is omitted. -/

/-- A Pins or PinsN declaration inside a Subsignal. -/
structure PinsDecl where
  pins : String
  dir : String
  invert : Bool
  assert_width : Nat
deriving DecidableEq

/-- Pins(p, dir, assert_width) — non-inverted polarity. -/
def Pins (p : String) (dir : String) (assert_width : Nat) : PinsDecl :=
  ⟨p, dir, false, assert_width⟩

/-- PinsN(p, dir, assert_width) — every pin inverted. -/
def PinsN (p : String) (dir : String) (assert_width : Nat) : PinsDecl :=
  ⟨p, dir, true, assert_width⟩

/-- One entry of the io list of a resource: a named sub-signal or a
trailing attribute block. -/
inductive IoEntry where
  | sub (name : String) (pins : PinsDecl)
  | attrs (a : List (String × String))
deriving DecidableEq

/-- A named, numbered resource bundle. -/
structure Resource where
  name : String
  ios : List IoEntry
deriving DecidableEq

/-- Embeds UARTResource: rx and tx always, each optional flow-control
line appended when supplied, with directions chosen from the dce/dte
role; supplying any flow-control line with a role outside dce/dte fails
the assert.  Resource.family with default_name uart. -/
def UARTResource (rx tx : String) (rts cts dtr dsr dcd ri : Option String)
    (attrs : Option (List (String × String))) (role : Option String) :
    Except String Resource :=
  if (rts.isSome || cts.isSome || dtr.isSome || dsr.isSome || dcd.isSome || ri.isSome)
      && !(role = some "dce" || role = some "dte") then
    .error "AssertionError"
  else
    let dce_to_dte := if role = some "dte" then "i" else "o"
    let dte_to_dce := if role = some "dte" then "o" else "i"
    let io : List IoEntry :=
      [.sub "rx" (Pins rx "i" 1), .sub "tx" (Pins tx "o" 1)]
      ++ (match rts with | some p => [.sub "rts" (Pins p dte_to_dce 1)] | none => [])
      ++ (match cts with | some p => [.sub "cts" (Pins p dce_to_dte 1)] | none => [])
      ++ (match dtr with | some p => [.sub "dtr" (Pins p dte_to_dce 1)] | none => [])
      ++ (match dsr with | some p => [.sub "dsr" (Pins p dce_to_dte 1)] | none => [])
      ++ (match dcd with | some p => [.sub "dcd" (Pins p dce_to_dte 1)] | none => [])
      ++ (match ri with | some p => [.sub "ri" (Pins p dce_to_dte 1)] | none => [])
      ++ (match attrs with | some a => [.attrs a] | none => [])
    .ok ⟨"uart", io⟩

/-- Embeds IrDAResource: exactly one of en (active-high enable, plain
pins) and sd (active-low shutdown, inverted pins) must be supplied — the
xor assert fires before any sub-signal is built — and the survivor
becomes the en sub-signal. -/
def IrDAResource (rx tx : String) (en sd : Option String)
    (attrs : Option (List (String × String))) : Except String Resource :=
  if !(en.isSome ^^ sd.isSome) then
    .error "AssertionError"
  else
    let io : List IoEntry :=
      [.sub "rx" (Pins rx "i" 1), .sub "tx" (Pins tx "o" 1)]
      ++ (match en with | some p => [.sub "en" (Pins p "o" 1)] | none => [])
      ++ (match sd with | some p => [.sub "en" (PinsN p "o" 1)] | none => [])
      ++ (match attrs with | some a => [.attrs a] | none => [])
    .ok ⟨"irda", io⟩

/- Priority encoder (src/nmigen/lib/coding.py).  The input signal value
is a natural number below 2 to the width; its bits are Nat.testBit. -/

/-- Embeds the o output of PriorityEncoder.get_fragment: the loop
iterates over reversed(self.i), so step j tests bit width - j - 1 and,
under last-write-wins combinational semantics, the last taken If — the
one for the least significant asserted bit — determines o; the default
is 0. -/
def priorityEncoder_o (width : Nat) (iv : Nat) : Nat :=
  (List.range width).foldl
    (fun acc j => if iv.testBit (width - j - 1) then width - j - 1 else acc) 0

/-- Embeds the n output: n.eq(self.i == 0). -/
def priorityEncoder_n (width : Nat) (iv : Nat) : Bool :=
  iv == 0

/- Helper vocabulary for the theorems. -/

/-- The auxiliary signal both inversion helpers allocate: Signal.like of
the caller-visible signal with name suffix _n. -/
def auxSig (z : Sig) : Sig := ⟨z.name ++ "_n", z.width⟩

/-- The combinational entry get_ineg adds: z.eq(not aux). -/
def inegEntry (z : Sig) : Sig × Expr := (z, .not (.sig (auxSig z)))

/-- The combinational entry get_oneg adds: aux.eq(not a). -/
def onegEntry (a : Sig) : Sig × Expr := (auxSig a, .not (.sig a))

/-- Number of primitive instances of the given type in a module. -/
def countPrim (st : CState) (p : String) : Nat :=
  (st.insts.filter (fun ins => ins.prim == p)).length

/-- Does an expression read the bitwise negation of the pin enable
(either whole, as on ECP5, or subscripted, as on MachXO2/3L)? -/
def usesInvertedOE (pin : Pin) : Expr → Bool
  | .not (.sig s) => s == pin.oe
  | .bit (.not (.sig s)) _ => s == pin.oe
  | _ => false

/-- The tristate-enable register instances of a module: those with a port
reading the inverted pin enable. -/
def oeRegs (pin : Pin) (st : CState) : List Inst :=
  st.insts.filter (fun ins => ins.ports.any (fun pr => usesInvertedOE pin pr.2))

/-- Instance count of a primitive type excluding the tristate-enable
registers (separates the two OFS1P3DX stages at gear 1). -/
def countPrimExOE (pin : Pin) (st : CState) (p : String) : Nat :=
  (st.insts.filter (fun ins =>
    ins.prim == p && !(ins.ports.any (fun pr => usesInvertedOE pin pr.2)))).length

/-- The tristate-enable register instance the ECP5 buffer builds for one
bit: an OFS1P3DX clocked by the output clock whose data input is the
whole inverted enable. -/
def ecp5OeRegInst (pin : Pin) (bit : Nat) : Inst :=
  ⟨"OFS1P3DX", [],
    [("i_SCLK", .sig pin.o_clk), ("i_SP", .const 1), ("i_CD", .const 0),
     ("i_D", .not (.sig pin.oe)), ("o_Q", .bit (.sig pin.xdr_t) bit)]⟩

/-- The single tristate-enable register the MachXO2/3L buffer builds: an
OFS1P3DX whose data input is bit 0 of the inverted enable and whose
output is bit 0 of the one-bit tristate handle. -/
def machxoOeRegInst (pin : Pin) : Inst :=
  ⟨"OFS1P3DX", [],
    [("i_SCLK", .sig pin.o_clk), ("i_SP", .const 1), ("i_CD", .const 0),
     ("i_D", .bit (.not (.sig pin.oe)) 0), ("o_Q", .bit (.sig pin.xdr_t1) 0)]⟩

/-- The caller-visible input phase signals the ECP5 buffer reads for a
given gear (pin.i below gear 2, pin.i0.. above). -/
def ecp5IPhases (pin : Pin) : List Sig :=
  if pin.xdr < 2 then [pin.i]
  else if pin.xdr = 2 then [pin.i0, pin.i1]
  else if pin.xdr = 4 then [pin.i0, pin.i1, pin.i2, pin.i3]
  else if pin.xdr = 7 then
    [pin.i0, pin.i1, pin.i2, pin.i3, pin.i4, pin.i5, pin.i6]
  else []

/-- The caller-visible output phase signals of the ECP5 buffer. -/
def ecp5OPhases (pin : Pin) : List Sig :=
  if pin.xdr < 2 then [pin.o]
  else if pin.xdr = 2 then [pin.o0, pin.o1]
  else if pin.xdr = 4 then [pin.o0, pin.o1, pin.o2, pin.o3]
  else if pin.xdr = 7 then
    [pin.o0, pin.o1, pin.o2, pin.o3, pin.o4, pin.o5, pin.o6]
  else []

/-- The caller-visible input phase signals of the MachXO2/3L buffer. -/
def machxoIPhases (pin : Pin) : List Sig :=
  if pin.xdr < 2 then [pin.i]
  else if pin.xdr = 2 then [pin.i0, pin.i1]
  else []

/-- The caller-visible output phase signals of the MachXO2/3L buffer. -/
def machxoOPhases (pin : Pin) : List Sig :=
  if pin.xdr < 2 then [pin.o]
  else if pin.xdr = 2 then [pin.o0, pin.o1]
  else []

/-- The register-stage primitive of the ECP5 input path per gear. -/
def ecp5IStage : Nat → String
  | 1 => "IFS1P3DX"
  | 2 => "IDDRX1F"
  | 4 => "IDDRX2F"
  | 7 => "IDDR71B"
  | _ => ""

/-- The register-stage primitive of the ECP5 output path per gear. -/
def ecp5OStage : Nat → String
  | 1 => "OFS1P3DX"
  | 2 => "ODDRX1F"
  | 4 => "ODDRX2F"
  | 7 => "ODDR71B"
  | _ => ""

/-- The register-stage primitive of the MachXO2/3L input path per gear. -/
def machxoIStage : Nat → String
  | 1 => "IFS1P3DX"
  | 2 => "IDDRXE"
  | _ => ""

/-- The register-stage primitive of the MachXO2/3L output path per gear. -/
def machxoOStage : Nat → String
  | 1 => "OFS1P3DX"
  | 2 => "ODDRXE"
  | _ => ""

/-- Unfolding lemma: mapping get_ineg over a phase list leaves the
instances alone, appends one negation entry per phase signal when invert
is set, and returns either the auxiliary or the original signals. -/
theorem negAll_ineg (st : CState) (zs : List Sig) (inv : Bool) :
    negAll get_ineg st zs inv =
      (zs.map (fun z => if inv then auxSig z else z),
       ⟨st.insts, st.combs ++ (if inv then zs.map inegEntry else [])⟩) := by
  induction zs generalizing st with
  | nil => cases inv <;> simp [negAll]
  | cons z rest ih =>
      cases inv <;>
        simp_all [negAll, get_ineg, addComb, auxSig, inegEntry]

/-- Unfolding lemma for get_oneg, analogous to negAll_ineg. -/
theorem negAll_oneg (st : CState) (zs : List Sig) (inv : Bool) :
    negAll get_oneg st zs inv =
      (zs.map (fun z => if inv then auxSig z else z),
       ⟨st.insts, st.combs ++ (if inv then zs.map onegEntry else [])⟩) := by
  induction zs generalizing st with
  | nil => cases inv <;> simp [negAll]
  | cons z rest ih =>
      cases inv <;>
        simp_all [negAll, get_oneg, addComb, auxSig, onegEntry]

/-- C5: for both platforms, should_skip_port_component answers true
exactly when the component is the negative leg n and the IO_TYPE
attribute, defaulting to LVCMOS25, belongs to the platform catalog of
differential types; any other IO_TYPE or component yields false. -/
theorem C5_should_skip_iff (attrs : List (String × String)) (component : String) :
    (ECP5.should_skip_port_component attrs component = true ↔
      component = "n" ∧
        ((attrs.lookup "IO_TYPE").getD "LVCMOS25") ∈ ECP5.differential_io_types) ∧
    (MachXO.should_skip_port_component attrs component = true ↔
      component = "n" ∧
        ((attrs.lookup "IO_TYPE").getD "LVCMOS25") ∈ MachXO.differential_io_types) := by
  constructor <;>
    · simp only [ECP5.should_skip_port_component, MachXO.should_skip_port_component]
      rw [Bool.if_true_left]
      simp [and_comm, List.contains_eq_any_beq, List.any_eq_true]

/-- C6: the ECP5 constructor validates self.toolchain before assigning
it, and the class default is None, so construction fails with the
configuration error for every requested toolchain, Trellis and Diamond
included; once the attribute does hold Trellis or Diamond the three
selection properties return the matching tool list and template sets,
and an unrecognized value still stored there makes them fail. -/
theorem C6_init_checks_before_assign :
    (∀ tc : String, ECP5.init ECP5.toolchain_class_default tc =
      .error "Unknown toolchain None, must be either Trellis, or Diamond")
    ∧ ECP5.required_tools (some "Trellis") = .ok ECP5.trellis_required_tools
    ∧ ECP5.required_tools (some "Diamond") = .ok ECP5.diamond_required_tools
    ∧ ECP5.file_templates (some "Trellis") = .ok .trellisFiles
    ∧ ECP5.file_templates (some "Diamond") = .ok .diamondFiles
    ∧ ECP5.command_templates (some "Trellis") = .ok .trellisCommands
    ∧ ECP5.command_templates (some "Diamond") = .ok .diamondCommands
    ∧ ECP5.required_tools (some "Symbiflow") =
        .error "Unknown toolchain Symbiflow, must be either Trellis, or Diamond" :=
  ⟨fun tc => rfl, rfl, rfl, rfl, rfl, rfl, rfl, rfl⟩

/-- C7: a UART resource with only rx and tx yields exactly the two data
sub-signals; adding rts and cts under an explicit dte or dce role yields
exactly four, the flow-control directions following the role (dte drives
rts and samples cts, dce the reverse). -/
theorem C7_uart_subsignals (rx tx r c : String) :
    UARTResource rx tx none none none none none none none none =
      .ok ⟨"uart", [.sub "rx" (Pins rx "i" 1), .sub "tx" (Pins tx "o" 1)]⟩
    ∧ UARTResource rx tx (some r) (some c) none none none none none (some "dte") =
      .ok ⟨"uart", [.sub "rx" (Pins rx "i" 1), .sub "tx" (Pins tx "o" 1),
        .sub "rts" (Pins r "o" 1), .sub "cts" (Pins c "i" 1)]⟩
    ∧ UARTResource rx tx (some r) (some c) none none none none none (some "dce") =
      .ok ⟨"uart", [.sub "rx" (Pins rx "i" 1), .sub "tx" (Pins tx "o" 1),
        .sub "rts" (Pins r "i" 1), .sub "cts" (Pins c "o" 1)]⟩ :=
  ⟨rfl, rfl, rfl⟩

/-- C8: IrDA construction fails the mutual-exclusion assert when both or
neither of en and sd are supplied, whatever the attributes; with exactly
one of them it succeeds and produces the en sub-signal, plain pins from
en and inverted pins from sd. -/
theorem C8_irda_exclusive (rx tx e s : String)
    (a : Option (List (String × String))) :
    IrDAResource rx tx (some e) (some s) a = .error "AssertionError"
    ∧ IrDAResource rx tx none none a = .error "AssertionError"
    ∧ IrDAResource rx tx (some e) none none =
        .ok ⟨"irda", [.sub "rx" (Pins rx "i" 1), .sub "tx" (Pins tx "o" 1),
          .sub "en" (Pins e "o" 1)]⟩
    ∧ IrDAResource rx tx none (some s) none =
        .ok ⟨"irda", [.sub "rx" (Pins rx "i" 1), .sub "tx" (Pins tx "o" 1),
          .sub "en" (PinsN s "o" 1)]⟩ :=
  ⟨rfl, rfl, rfl, rfl⟩

/-- C2 counterexample: on MachXO2/3L, asking the buffer synthesizer for
gear 3 on pin x fails with a bare AssertionError whose message mentions
neither the pin name nor the gear value. -/
theorem C2_counterexample :
    MachXO.xdrBuffer CState.empty ⟨"x", 1, .i, 3⟩ false false = .error "AssertionError"
    ∧ ¬ List.IsInfix "x".data "AssertionError".data
    ∧ ¬ List.IsInfix "3".data "AssertionError".data :=
  ⟨rfl, by decide, by decide⟩

/-- C2 amended: for a gear level outside 0, 1, 2, 4, 7 the ECP5 buffer
synthesizer fails with an error whose message carries both the gear value
and the pin name, while the MachXO2/3L one fails with a bare assertion
error for any gear outside 0, 1, 2 (its callers reject invalid gears
beforehand through the external feature check). -/
theorem C2_amended (pin : Pin) (m : CState) (ii oi : Bool) :
    (pin.xdr ≠ 0 → pin.xdr ≠ 1 → pin.xdr ≠ 2 → pin.xdr ≠ 4 → pin.xdr ≠ 7 →
      ECP5.xdrBuffer m pin ii oi =
        .error ("Invalid gearing " ++ toString pin.xdr ++ " for pin " ++ pin.name
          ++ ", must be one of, 0, 1, 2, 4, or 7"))
    ∧ (pin.xdr ≠ 0 → pin.xdr ≠ 1 → pin.xdr ≠ 2 →
      MachXO.xdrBuffer m pin ii oi = .error "AssertionError") := by
  constructor
  · intro h0 h1 h2 h4 h7
    have hlt : ¬ pin.xdr < 2 := by omega
    simp [ECP5.xdrBuffer, h0, h1, h2, h4, h7, hlt]
  · intro h0 h1 h2
    have hlt : ¬ pin.xdr < 2 := by omega
    simp [MachXO.xdrBuffer, h0, h1, h2, hlt]

/-- Witness for C2 amended, at gear 3 on a pin named x. -/
theorem C2_amended_witness :
    ECP5.xdrBuffer CState.empty ⟨"x", 1, .i, 3⟩ false false =
      .error "Invalid gearing 3 for pin x, must be one of, 0, 1, 2, 4, or 7"
    ∧ MachXO.xdrBuffer CState.empty ⟨"x", 1, .i, 3⟩ false false = .error "AssertionError" :=
  ⟨(C2_amended ⟨"x", 1, .i, 3⟩ CState.empty false false).1
      (by decide) (by decide) (by decide) (by decide) (by decide),
   (C2_amended ⟨"x", 1, .i, 3⟩ CState.empty false false).2
      (by decide) (by decide) (by decide)⟩

/-- C4 counterexample: at gear 2 with i_invert set, the input direction
receives two auxiliary negation assignments, not exactly one. -/
theorem C4_counterexample :
    ∃ r m, ECP5.xdrBuffer CState.empty ⟨"x", 1, .i, 2⟩ true false = .ok (r, m)
      ∧ m.combs.length = 2 ∧ m.combs.length ≠ 1 :=
  ⟨_, _, rfl, rfl, by decide⟩

/-- C4 amended: a set inversion flag introduces exactly one auxiliary
signal and one negation per caller-visible phase signal of the affected
direction (one below gear 2, two at gear 2, four at gear 4 and seven at
gear 7 on ECP5); with the flag unset no negation entry or auxiliary
signal is created at all and, at gear 0, the returned handle is the
original pin signal itself. -/
theorem C4_amended (pin : Pin) (ii oi : Bool) :
    (pin.xdr = 0 ∨ pin.xdr = 1 ∨ pin.xdr = 2 ∨ pin.xdr = 4 ∨ pin.xdr = 7 →
      ∃ r m, ECP5.xdrBuffer CState.empty pin ii oi = .ok (r, m)
        ∧ m.combs =
            (if pin.dir.hasI && ii then (ecp5IPhases pin).map inegEntry else [])
            ++ (if pin.dir.hasO && oi then (ecp5OPhases pin).map onegEntry else [])
        ∧ (pin.xdr = 0 → pin.dir.hasI = true →
            r.1 = some (.sig (if ii then auxSig pin.i else pin.i)))
        ∧ (pin.xdr = 0 → pin.dir.hasO = true →
            r.2.1 = some (.sig (if oi then auxSig pin.o else pin.o))))
    ∧ (pin.xdr = 0 ∨ pin.xdr = 1 ∨ pin.xdr = 2 →
      ∃ r m, MachXO.xdrBuffer CState.empty pin ii oi = .ok (r, m)
        ∧ m.combs =
            (if pin.dir.hasI && ii then (machxoIPhases pin).map inegEntry else [])
            ++ (if pin.dir.hasO && oi then (machxoOPhases pin).map onegEntry else [])
        ∧ (pin.xdr = 0 → pin.dir.hasI = true →
            r.1 = some (.sig (if ii then auxSig pin.i else pin.i)))
        ∧ (pin.xdr = 0 → pin.dir.hasO = true →
            r.2.1 = some (.sig (if oi then auxSig pin.o else pin.o)))) := by
  obtain ⟨nm, w, d, x⟩ := pin
  constructor
  · rintro (rfl | rfl | rfl | rfl | rfl) <;> cases d <;>
      (simp [ECP5.xdrBuffer, negAll_ineg, negAll_oneg, ecp5IPhases, ecp5OPhases,
        PinDir.hasI, PinDir.hasO, PinDir.hasOE]) <;>
      (refine ⟨_, _, _, _, ⟨⟨rfl, rfl, rfl⟩, rfl⟩, ?_⟩; and_intros <;> rfl)
  · rintro (rfl | rfl | rfl) <;> cases d <;>
      (simp [MachXO.xdrBuffer, negAll_ineg, negAll_oneg, machxoIPhases, machxoOPhases,
        PinDir.hasI, PinDir.hasO, PinDir.hasOE]) <;>
      (refine ⟨_, _, _, _, ⟨⟨rfl, rfl, rfl⟩, rfl⟩, ?_⟩; and_intros <;> rfl)

/-- Witness for C4 amended: gear 2 input with i_invert yields exactly the
two negation entries for the two phase signals. -/
theorem C4_amended_witness :
    (ECP5.xdrBuffer CState.empty ⟨"x", 1, .i, 2⟩ true false).map
      (fun rm => rm.2.combs) = .ok [inegEntry (Pin.i0 ⟨"x", 1, .i, 2⟩),
        inegEntry (Pin.i1 ⟨"x", 1, .i, 2⟩)] := by
  obtain ⟨r, m, he, hc, -, -⟩ := (C4_amended ⟨"x", 1, .i, 2⟩ true false).1 (by decide)
  rw [he, Except.map]
  simp only [hc]
  rfl

/-- C3: for pins with an enable path, at gear 0 the returned
tristate-enable is the direct inversion of the pin enable (replicated to
the pin width on ECP5) with no primitive instantiated at all, and at
every supported gear at or above 1 it is a fresh handle driven by
inverted-enable registers clocked by the output clock — one per bit on
ECP5 for gears 1, 2, 4, 7, and a single one-bit register on MachXO2/3L
for gears 1, 2. -/
theorem C3_enable_path (pin : Pin) (ii oi : Bool) (hd : pin.dir.hasOE = true) :
    (pin.xdr = 0 →
      (∃ r m, ECP5.xdrBuffer CState.empty pin ii oi = .ok (r, m)
        ∧ r.2.2 = some (.not (.replicate (.sig pin.oe) pin.width))
        ∧ m.insts = [])
      ∧ (∃ r m, MachXO.xdrBuffer CState.empty pin ii oi = .ok (r, m)
        ∧ r.2.2 = some (.not (.sig pin.oe))
        ∧ m.insts = []))
    ∧ (pin.xdr = 1 ∨ pin.xdr = 2 ∨ pin.xdr = 4 ∨ pin.xdr = 7 →
      ∃ r m, ECP5.xdrBuffer CState.empty pin ii oi = .ok (r, m)
        ∧ r.2.2 = some (.sig pin.xdr_t)
        ∧ oeRegs pin m = (List.range pin.width).map (ecp5OeRegInst pin))
    ∧ (pin.xdr = 1 ∨ pin.xdr = 2 →
      ∃ r m, MachXO.xdrBuffer CState.empty pin ii oi = .ok (r, m)
        ∧ r.2.2 = some (.sig pin.xdr_t1)
        ∧ oeRegs pin m = [machxoOeRegInst pin]) := by
  obtain ⟨nm, w, d, x⟩ := pin
  refine ⟨?_, ?_, ?_⟩
  · rintro rfl
    cases d <;> simp_all [PinDir.hasOE] <;>
      constructor <;>
      (simp [ECP5.xdrBuffer, MachXO.xdrBuffer, negAll_ineg, negAll_oneg,
        PinDir.hasI, PinDir.hasO, PinDir.hasOE, CState.empty]) <;>
      (refine ⟨_, _, _, _, ⟨⟨rfl, rfl, rfl⟩, rfl⟩, ?_⟩; and_intros <;> rfl)
  · rintro (rfl | rfl | rfl | rfl) <;> cases d <;> simp_all [PinDir.hasOE] <;>
      (simp [ECP5.xdrBuffer, negAll_ineg, negAll_oneg,
        PinDir.hasI, PinDir.hasO, PinDir.hasOE, CState.empty]
       refine ⟨_, _, _, _, ⟨⟨rfl, rfl, rfl⟩, rfl⟩, rfl, ?_⟩
       simp [oeRegs, usesInvertedOE, ecp5OeRegInst,
         ECP5.get_ireg, ECP5.get_oreg, ECP5.get_oereg, ECP5.get_iddr,
         ECP5.get_iddrx2, ECP5.get_iddr71b, ECP5.get_oddr, ECP5.get_oddrx2,
         ECP5.get_oddr71b, List.filter_append, List.filter_map, Function.comp_def]
       try rfl)
  · rintro (rfl | rfl) <;> cases d <;> simp_all [PinDir.hasOE] <;>
      (simp [MachXO.xdrBuffer, negAll_ineg, negAll_oneg,
        PinDir.hasI, PinDir.hasO, PinDir.hasOE, CState.empty]
       refine ⟨_, _, _, _, ⟨⟨rfl, rfl, rfl⟩, rfl⟩, rfl, ?_⟩
       simp [oeRegs, usesInvertedOE, machxoOeRegInst,
         MachXO.get_ireg, MachXO.get_oreg, MachXO.get_iddr, MachXO.get_oddr,
         List.filter_append, List.filter_map, Function.comp_def]
       try rfl)

/-- Witness for C3: a one-bit io pin at gear 0 on ECP5 and at gear 1 on
MachXO2/3L. -/
theorem C3_enable_path_witness :
    (ECP5.xdrBuffer CState.empty ⟨"x", 1, .io, 0⟩ false false).map
        (fun rm => rm.1.2.2) =
      .ok (some (.not (.replicate (.sig (Pin.oe ⟨"x", 1, .io, 0⟩)) 1)))
    ∧ (MachXO.xdrBuffer CState.empty ⟨"x", 1, .io, 1⟩ false false).map
        (fun rm => (rm.1.2.2, oeRegs ⟨"x", 1, .io, 1⟩ rm.2)) =
      .ok (some (.sig (Pin.xdr_t1 ⟨"x", 1, .io, 1⟩)),
        [machxoOeRegInst ⟨"x", 1, .io, 1⟩]) := by
  constructor
  · obtain ⟨r, m, he, ht, -⟩ := ((C3_enable_path ⟨"x", 1, .io, 0⟩ false false rfl).1 rfl).1
    rw [he]
    simp only [Except.map]
    simp [ht]
  · obtain ⟨r, m, he, ht, ho⟩ :=
      (C3_enable_path ⟨"x", 1, .io, 1⟩ false false rfl).2.2 (Or.inl rfl)
    rw [he]
    simp only [Except.map]
    simp [ht, ho]

/-- Last-write-wins folding over a list equals the first match of the
reversed traversal: a right fold that keeps the current index whenever
the predicate holds evaluates to the first listed index satisfying it. -/
theorem foldr_step_find (i : Nat → Bool) (d : Nat) (l : List Nat) :
    l.foldr (fun k acc => if i k then k else acc) d = ((l.find? i).getD d) := by
  induction l with
  | nil => rfl
  | cons a l ih => by_cases h : i a <;> simp [List.find?_cons, h, ih]

/-- find? over a contiguous range returns the least element of the range
satisfying the predicate. -/
theorem find?_range'_spec (i : Nat → Bool) :
    ∀ n s k, (List.range' s n).find? i = some k →
      i k = true ∧ s ≤ k ∧ k < s + n ∧ ∀ m, s ≤ m → m < k → i m = false := by
  intro n
  induction n with
  | zero => intro s k h; simp [List.range'] at h
  | succ n ih =>
      intro s k h
      rw [List.range'_succ] at h
      by_cases hs : i s
      · rw [List.find?_cons_of_pos _ hs] at h
        obtain rfl : s = k := by simpa using h
        exact ⟨hs, Nat.le_refl _, by omega, fun m h1 h2 => absurd h1 (by omega)⟩
      · rw [List.find?_cons_of_neg _ hs] at h
        obtain ⟨hk, h1, h2, hmin⟩ := ih (s + 1) k h
        refine ⟨hk, by omega, by omega, fun m hm1 hm2 => ?_⟩
        rcases Nat.eq_or_lt_of_le hm1 with rfl | hlt
        · simpa using hs
        · exact hmin m (by omega) hm2

/-- find? over a contiguous range succeeds when the range holds a
satisfying element. -/
theorem find?_range'_isSome (i : Nat → Bool) :
    ∀ n s, (∃ k, s ≤ k ∧ k < s + n ∧ i k = true) →
      ((List.range' s n).find? i).isSome = true := by
  intro n
  induction n with
  | zero => rintro s ⟨k, h1, h2, _⟩; omega
  | succ n ih =>
      rintro s ⟨k, h1, h2, hk⟩
      rw [List.range'_succ]
      by_cases hs : i s
      · simp [List.find?_cons_of_pos _ hs]
      · rw [List.find?_cons_of_neg _ hs]
        apply ih (s + 1)
        rcases Nat.eq_or_lt_of_le h1 with rfl | hlt
        · exact absurd hk (by simpa using hs)
        · exact ⟨k, by omega, by omega, hk⟩

/-- The encoder fold — reversed iteration with last-write-wins — equals
the first set bit scanning upward from bit 0. -/
theorem priorityEncoder_o_eq_find (w iv : Nat) :
    priorityEncoder_o w iv =
      ((List.range w).find? (fun k => iv.testBit k)).getD 0 := by
  unfold priorityEncoder_o
  have h1 : (List.range w).foldl
        (fun acc j => if iv.testBit (w - j - 1) then w - j - 1 else acc) 0
      = ((List.range w).map (fun j => w - 1 - j)).foldl
        (fun acc k => if iv.testBit k then k else acc) 0 := by
    rw [List.foldl_map]
    congr 1
    funext acc j
    rw [show w - 1 - j = w - j - 1 by omega]
  have h2 : (List.range w).map (fun j => w - 1 - j) = (List.range w).reverse := by
    rw [List.range_eq_range', List.reverse_range']
    simp [← List.range_eq_range']
  rw [h1, h2, List.foldl_reverse, foldr_step_find]

/-- C9: for any width and input value in range, the emitted circuit
drives n low and o to the index of the least significant asserted input
bit whenever the input is nonzero, and drives n high and o to 0 when the
input is zero. -/
theorem C9_priority_encoder (w iv : Nat) (hlt : iv < 2 ^ w) :
    (iv ≠ 0 →
      priorityEncoder_n w iv = false
      ∧ priorityEncoder_o w iv < w
      ∧ iv.testBit (priorityEncoder_o w iv) = true
      ∧ ∀ m, m < priorityEncoder_o w iv → iv.testBit m = false)
    ∧ (iv = 0 → priorityEncoder_n w iv = true ∧ priorityEncoder_o w iv = 0) := by
  constructor
  · intro h0
    have hex : ∃ k, 0 ≤ k ∧ k < 0 + w ∧ iv.testBit k = true := by
      by_contra hc
      push_neg at hc
      apply h0
      apply Nat.eq_of_testBit_eq
      intro k
      rw [Nat.zero_testBit]
      rcases Nat.lt_or_ge k w with h | h
      · have := hc k (by omega) (by omega)
        simpa using this
      · exact Nat.testBit_lt_two_pow
          (Nat.lt_of_lt_of_le hlt (Nat.pow_le_pow_right (by norm_num) h))
    have hsome := find?_range'_isSome (fun k => iv.testBit k) w 0 hex
    rw [← List.range_eq_range'] at hsome
    obtain ⟨k, hk⟩ := Option.isSome_iff_exists.mp hsome
    have hspec := find?_range'_spec (fun k => iv.testBit k) w 0 k
      (by rw [← List.range_eq_range']; exact hk)
    obtain ⟨hbit, -, hklt, hmin⟩ := hspec
    have ho : priorityEncoder_o w iv = k := by
      rw [priorityEncoder_o_eq_find, hk]
      rfl
    refine ⟨by simp [priorityEncoder_n, h0], ?_, ?_, ?_⟩
    · omega
    · rw [ho]; exact hbit
    · intro m hm
      rw [ho] at hm
      exact hmin m (by omega) hm
  · intro h0
    subst h0
    refine ⟨rfl, ?_⟩
    rw [priorityEncoder_o_eq_find]
    have : (List.range w).find? (fun k => Nat.testBit 0 k) = none := by
      rw [List.find?_eq_none]
      intro x hx
      simp [Nat.zero_testBit]
    rw [this]
    rfl

/-- Witness for C9: width 4, input 6 (least set bit 1) and input 0. -/
theorem C9_priority_encoder_witness :
    priorityEncoder_n 4 6 = false
    ∧ priorityEncoder_o 4 6 < 4
    ∧ Nat.testBit 6 (priorityEncoder_o 4 6) = true
    ∧ priorityEncoder_n 4 0 = true
    ∧ priorityEncoder_o 4 0 = 0 := by
  have h1 := (C9_priority_encoder 4 6 (by norm_num)).1 (by norm_num)
  have h2 := (C9_priority_encoder 4 0 (by norm_num)).2 rfl
  exact ⟨h1.1, h1.2.1, h1.2.2.1, h2.1, h2.2⟩


/-- Widths of the three handles the ECP5 buffer returns: all equal the
declared pin width, for every supported gear and direction. -/
theorem ecp5_buffer_widths (pin : Pin) (ii oi : Bool)
    (hx : pin.xdr = 0 ∨ pin.xdr = 1 ∨ pin.xdr = 2 ∨ pin.xdr = 4 ∨ pin.xdr = 7) :
    (ECP5.xdrBuffer CState.empty pin ii oi).map
        (fun rm => (rm.1.1.map Expr.width, rm.1.2.1.map Expr.width,
          rm.1.2.2.map Expr.width)) =
      .ok (if pin.dir.hasI then some pin.width else none,
           if pin.dir.hasO then some pin.width else none,
           if pin.dir.hasOE then some pin.width else none) := by
  obtain ⟨nm, w, d, x⟩ := pin
  cases ii <;> cases oi <;> cases d <;> rcases hx with rfl | rfl | rfl | rfl | rfl <;>
    simp [Except.map, Expr.width, ECP5.xdrBuffer, negAll_ineg, negAll_oneg, PinDir.hasI,
      PinDir.hasO, PinDir.hasOE, CState.empty, ECP5.get_ireg, ECP5.get_oreg,
      ECP5.get_oereg, ECP5.get_iddr, ECP5.get_iddrx2, ECP5.get_iddr71b,
      ECP5.get_oddr, ECP5.get_oddrx2, ECP5.get_oddr71b, Bind.bind, Except.bind,
      countPrim, countPrimExOE, oeRegs, usesInvertedOE, ecp5IStage, ecp5OStage,
      List.filter_append, List.filter_map, Function.comp_def,
      Pin.xdr_i, Pin.xdr_o, Pin.xdr_t, Pin.xdr_t1, auxSig, Pin.i, Pin.o, Pin.oe,
      Pin.i0, Pin.i1, Pin.i2, Pin.i3, Pin.i4, Pin.i5, Pin.i6,
      Pin.o0, Pin.o1, Pin.o2, Pin.o3, Pin.o4, Pin.o5, Pin.o6]

/-- Widths of the three handles the MachXO2/3L buffer returns: input and
output equal the pin width but the tristate-enable handle is one bit. -/
theorem machxo_buffer_widths (pin : Pin) (ii oi : Bool)
    (hx : pin.xdr = 0 ∨ pin.xdr = 1 ∨ pin.xdr = 2) :
    (MachXO.xdrBuffer CState.empty pin ii oi).map
        (fun rm => (rm.1.1.map Expr.width, rm.1.2.1.map Expr.width,
          rm.1.2.2.map Expr.width)) =
      .ok (if pin.dir.hasI then some pin.width else none,
           if pin.dir.hasO then some pin.width else none,
           if pin.dir.hasOE then some 1 else none) := by
  obtain ⟨nm, w, d, x⟩ := pin
  cases ii <;> cases oi <;> cases d <;> rcases hx with rfl | rfl | rfl <;>
    simp [Except.map, Expr.width, MachXO.xdrBuffer, negAll_ineg, negAll_oneg, PinDir.hasI,
      PinDir.hasO, PinDir.hasOE, CState.empty, MachXO.get_ireg, MachXO.get_oreg,
      MachXO.get_iddr, MachXO.get_oddr, Bind.bind, Except.bind,
      countPrim, countPrimExOE, oeRegs, usesInvertedOE, machxoIStage, machxoOStage,
      List.filter_append, List.filter_map, Function.comp_def,
      Pin.xdr_i, Pin.xdr_o, Pin.xdr_t, Pin.xdr_t1, auxSig, Pin.i, Pin.o, Pin.oe,
      Pin.i0, Pin.i1, Pin.i2, Pin.i3, Pin.i4, Pin.i5, Pin.i6,
      Pin.o0, Pin.o1, Pin.o2, Pin.o3, Pin.o4, Pin.o5, Pin.o6]

/-- The MachXO2/3L buffer hits its bare assertion for gears 4 and 7, the
high gears the ECP5 platform supports. -/
theorem machxo_buffer_gear47 (pin : Pin) (m : CState) (ii oi : Bool)
    (hx : pin.xdr = 4 ∨ pin.xdr = 7) :
    MachXO.xdrBuffer m pin ii oi = .error "AssertionError" := by
  have h0 : pin.xdr ≠ 0 := by omega
  have h1 : pin.xdr ≠ 1 := by omega
  have h2 : pin.xdr ≠ 2 := by omega
  have hlt : ¬ pin.xdr < 2 := by omega
  simp [MachXO.xdrBuffer, h0, h1, h2, hlt]

/-- Per-stage instance counts for ECP5 get_input: one IO buffer per bit, one register per bit per register stage, and the exact total. -/
theorem ecp5_get_input_counts (pin : Pin) (port : Port) (inv : Bool)
    (hd : pin.dir = .i)
    (hx : pin.xdr = 0 ∨ pin.xdr = 1 ∨ pin.xdr = 2 ∨ pin.xdr = 4 ∨ pin.xdr = 7) :
    ∃ st, ECP5.get_input pin port inv = .ok st
      ∧ countPrim st "IB" = pin.width
      ∧ (pin.xdr ≠ 0 → countPrim st (ecp5IStage pin.xdr) = pin.width)
      ∧ st.insts.length = pin.width * (if pin.xdr = 0 then 1 else 2) := by
  obtain ⟨nm, w, d, x⟩ := pin
  cases d <;> try exact PinDir.noConfusion hd
  cases inv <;> rcases hx with rfl | rfl | rfl | rfl | rfl <;>
    simp [ECP5.get_input,
      ECP5.xdrBuffer, negAll_ineg, negAll_oneg, PinDir.hasI,
      PinDir.hasO, PinDir.hasOE, CState.empty, ECP5.get_ireg, ECP5.get_oreg,
      ECP5.get_oereg, ECP5.get_iddr, ECP5.get_iddrx2, ECP5.get_iddr71b,
      ECP5.get_oddr, ECP5.get_oddrx2, ECP5.get_oddr71b, Bind.bind, Except.bind,
      countPrim, countPrimExOE, oeRegs, usesInvertedOE, ecp5IStage, ecp5OStage,
      List.filter_append, List.filter_map, Function.comp_def,
      Pin.xdr_i, Pin.xdr_o, Pin.xdr_t, Pin.xdr_t1, auxSig, Pin.i, Pin.o, Pin.oe,
      Pin.i0, Pin.i1, Pin.i2, Pin.i3, Pin.i4, Pin.i5, Pin.i6,
      Pin.o0, Pin.o1, Pin.o2, Pin.o3, Pin.o4, Pin.o5, Pin.o6] <;>
    try omega

/-- Per-stage instance counts for ECP5 get_diff_input: one IO buffer per bit, one register per bit per register stage, and the exact total. -/
theorem ecp5_get_diff_input_counts (pin : Pin) (port : Port) (inv : Bool)
    (hd : pin.dir = .i)
    (hx : pin.xdr = 0 ∨ pin.xdr = 1 ∨ pin.xdr = 2 ∨ pin.xdr = 4 ∨ pin.xdr = 7) :
    ∃ st, ECP5.get_diff_input pin port inv = .ok st
      ∧ countPrim st "IB" = pin.width
      ∧ (pin.xdr ≠ 0 → countPrim st (ecp5IStage pin.xdr) = pin.width)
      ∧ st.insts.length = pin.width * (if pin.xdr = 0 then 1 else 2) := by
  obtain ⟨nm, w, d, x⟩ := pin
  cases d <;> try exact PinDir.noConfusion hd
  cases inv <;> rcases hx with rfl | rfl | rfl | rfl | rfl <;>
    simp [ECP5.get_diff_input,
      ECP5.xdrBuffer, negAll_ineg, negAll_oneg, PinDir.hasI,
      PinDir.hasO, PinDir.hasOE, CState.empty, ECP5.get_ireg, ECP5.get_oreg,
      ECP5.get_oereg, ECP5.get_iddr, ECP5.get_iddrx2, ECP5.get_iddr71b,
      ECP5.get_oddr, ECP5.get_oddrx2, ECP5.get_oddr71b, Bind.bind, Except.bind,
      countPrim, countPrimExOE, oeRegs, usesInvertedOE, ecp5IStage, ecp5OStage,
      List.filter_append, List.filter_map, Function.comp_def,
      Pin.xdr_i, Pin.xdr_o, Pin.xdr_t, Pin.xdr_t1, auxSig, Pin.i, Pin.o, Pin.oe,
      Pin.i0, Pin.i1, Pin.i2, Pin.i3, Pin.i4, Pin.i5, Pin.i6,
      Pin.o0, Pin.o1, Pin.o2, Pin.o3, Pin.o4, Pin.o5, Pin.o6] <;>
    try omega

/-- Per-stage instance counts for ECP5 get_output: one IO buffer per bit, one register per bit per register stage, and the exact total. -/
theorem ecp5_get_output_counts (pin : Pin) (port : Port) (inv : Bool)
    (hd : pin.dir = .o)
    (hx : pin.xdr = 0 ∨ pin.xdr = 1 ∨ pin.xdr = 2 ∨ pin.xdr = 4 ∨ pin.xdr = 7) :
    ∃ st, ECP5.get_output pin port inv = .ok st
      ∧ countPrim st "OB" = pin.width
      ∧ (pin.xdr ≠ 0 → countPrim st (ecp5OStage pin.xdr) = pin.width)
      ∧ st.insts.length = pin.width * (if pin.xdr = 0 then 1 else 2) := by
  obtain ⟨nm, w, d, x⟩ := pin
  cases d <;> try exact PinDir.noConfusion hd
  cases inv <;> rcases hx with rfl | rfl | rfl | rfl | rfl <;>
    simp [ECP5.get_output,
      ECP5.xdrBuffer, negAll_ineg, negAll_oneg, PinDir.hasI,
      PinDir.hasO, PinDir.hasOE, CState.empty, ECP5.get_ireg, ECP5.get_oreg,
      ECP5.get_oereg, ECP5.get_iddr, ECP5.get_iddrx2, ECP5.get_iddr71b,
      ECP5.get_oddr, ECP5.get_oddrx2, ECP5.get_oddr71b, Bind.bind, Except.bind,
      countPrim, countPrimExOE, oeRegs, usesInvertedOE, ecp5IStage, ecp5OStage,
      List.filter_append, List.filter_map, Function.comp_def,
      Pin.xdr_i, Pin.xdr_o, Pin.xdr_t, Pin.xdr_t1, auxSig, Pin.i, Pin.o, Pin.oe,
      Pin.i0, Pin.i1, Pin.i2, Pin.i3, Pin.i4, Pin.i5, Pin.i6,
      Pin.o0, Pin.o1, Pin.o2, Pin.o3, Pin.o4, Pin.o5, Pin.o6] <;>
    try omega

/-- Per-stage instance counts for ECP5 get_diff_output: one IO buffer per bit, one register per bit per register stage, and the exact total. -/
theorem ecp5_get_diff_output_counts (pin : Pin) (port : Port) (inv : Bool)
    (hd : pin.dir = .o)
    (hx : pin.xdr = 0 ∨ pin.xdr = 1 ∨ pin.xdr = 2 ∨ pin.xdr = 4 ∨ pin.xdr = 7) :
    ∃ st, ECP5.get_diff_output pin port inv = .ok st
      ∧ countPrim st "OB" = pin.width
      ∧ (pin.xdr ≠ 0 → countPrim st (ecp5OStage pin.xdr) = pin.width)
      ∧ st.insts.length = pin.width * (if pin.xdr = 0 then 1 else 2) := by
  obtain ⟨nm, w, d, x⟩ := pin
  cases d <;> try exact PinDir.noConfusion hd
  cases inv <;> rcases hx with rfl | rfl | rfl | rfl | rfl <;>
    simp [ECP5.get_diff_output,
      ECP5.xdrBuffer, negAll_ineg, negAll_oneg, PinDir.hasI,
      PinDir.hasO, PinDir.hasOE, CState.empty, ECP5.get_ireg, ECP5.get_oreg,
      ECP5.get_oereg, ECP5.get_iddr, ECP5.get_iddrx2, ECP5.get_iddr71b,
      ECP5.get_oddr, ECP5.get_oddrx2, ECP5.get_oddr71b, Bind.bind, Except.bind,
      countPrim, countPrimExOE, oeRegs, usesInvertedOE, ecp5IStage, ecp5OStage,
      List.filter_append, List.filter_map, Function.comp_def,
      Pin.xdr_i, Pin.xdr_o, Pin.xdr_t, Pin.xdr_t1, auxSig, Pin.i, Pin.o, Pin.oe,
      Pin.i0, Pin.i1, Pin.i2, Pin.i3, Pin.i4, Pin.i5, Pin.i6,
      Pin.o0, Pin.o1, Pin.o2, Pin.o3, Pin.o4, Pin.o5, Pin.o6] <;>
    try omega

/-- Per-stage instance counts for ECP5 get_tristate: one IO buffer per bit, one register per bit per register stage, and the exact total. -/
theorem ecp5_get_tristate_counts (pin : Pin) (port : Port) (inv : Bool)
    (hd : pin.dir = .oe)
    (hx : pin.xdr = 0 ∨ pin.xdr = 1 ∨ pin.xdr = 2 ∨ pin.xdr = 4 ∨ pin.xdr = 7) :
    ∃ st, ECP5.get_tristate pin port inv = .ok st
      ∧ countPrim st "OBZ" = pin.width
      ∧ (pin.xdr ≠ 0 → countPrimExOE pin st (ecp5OStage pin.xdr) = pin.width
          ∧ (oeRegs pin st).length = pin.width)
      ∧ st.insts.length = pin.width * (if pin.xdr = 0 then 1 else 3) := by
  obtain ⟨nm, w, d, x⟩ := pin
  cases d <;> try exact PinDir.noConfusion hd
  cases inv <;> rcases hx with rfl | rfl | rfl | rfl | rfl <;>
    simp [ECP5.get_tristate,
      ECP5.xdrBuffer, negAll_ineg, negAll_oneg, PinDir.hasI,
      PinDir.hasO, PinDir.hasOE, CState.empty, ECP5.get_ireg, ECP5.get_oreg,
      ECP5.get_oereg, ECP5.get_iddr, ECP5.get_iddrx2, ECP5.get_iddr71b,
      ECP5.get_oddr, ECP5.get_oddrx2, ECP5.get_oddr71b, Bind.bind, Except.bind,
      countPrim, countPrimExOE, oeRegs, usesInvertedOE, ecp5IStage, ecp5OStage,
      List.filter_append, List.filter_map, Function.comp_def,
      Pin.xdr_i, Pin.xdr_o, Pin.xdr_t, Pin.xdr_t1, auxSig, Pin.i, Pin.o, Pin.oe,
      Pin.i0, Pin.i1, Pin.i2, Pin.i3, Pin.i4, Pin.i5, Pin.i6,
      Pin.o0, Pin.o1, Pin.o2, Pin.o3, Pin.o4, Pin.o5, Pin.o6] <;>
    try omega

/-- Per-stage instance counts for ECP5 get_diff_tristate: one IO buffer per bit, one register per bit per register stage, and the exact total. -/
theorem ecp5_get_diff_tristate_counts (pin : Pin) (port : Port) (inv : Bool)
    (hd : pin.dir = .oe)
    (hx : pin.xdr = 0 ∨ pin.xdr = 1 ∨ pin.xdr = 2 ∨ pin.xdr = 4 ∨ pin.xdr = 7) :
    ∃ st, ECP5.get_diff_tristate pin port inv = .ok st
      ∧ countPrim st "OBZ" = pin.width
      ∧ (pin.xdr ≠ 0 → countPrimExOE pin st (ecp5OStage pin.xdr) = pin.width
          ∧ (oeRegs pin st).length = pin.width)
      ∧ st.insts.length = pin.width * (if pin.xdr = 0 then 1 else 3) := by
  obtain ⟨nm, w, d, x⟩ := pin
  cases d <;> try exact PinDir.noConfusion hd
  cases inv <;> rcases hx with rfl | rfl | rfl | rfl | rfl <;>
    simp [ECP5.get_diff_tristate,
      ECP5.xdrBuffer, negAll_ineg, negAll_oneg, PinDir.hasI,
      PinDir.hasO, PinDir.hasOE, CState.empty, ECP5.get_ireg, ECP5.get_oreg,
      ECP5.get_oereg, ECP5.get_iddr, ECP5.get_iddrx2, ECP5.get_iddr71b,
      ECP5.get_oddr, ECP5.get_oddrx2, ECP5.get_oddr71b, Bind.bind, Except.bind,
      countPrim, countPrimExOE, oeRegs, usesInvertedOE, ecp5IStage, ecp5OStage,
      List.filter_append, List.filter_map, Function.comp_def,
      Pin.xdr_i, Pin.xdr_o, Pin.xdr_t, Pin.xdr_t1, auxSig, Pin.i, Pin.o, Pin.oe,
      Pin.i0, Pin.i1, Pin.i2, Pin.i3, Pin.i4, Pin.i5, Pin.i6,
      Pin.o0, Pin.o1, Pin.o2, Pin.o3, Pin.o4, Pin.o5, Pin.o6] <;>
    try omega

/-- Per-stage instance counts for ECP5 get_input_output: one IO buffer per bit, one register per bit per register stage, and the exact total. -/
theorem ecp5_get_input_output_counts (pin : Pin) (port : Port) (inv : Bool)
    (hd : pin.dir = .io)
    (hx : pin.xdr = 0 ∨ pin.xdr = 1 ∨ pin.xdr = 2 ∨ pin.xdr = 4 ∨ pin.xdr = 7) :
    ∃ st, ECP5.get_input_output pin port inv = .ok st
      ∧ countPrim st "BB" = pin.width
      ∧ (pin.xdr ≠ 0 → countPrim st (ecp5IStage pin.xdr) = pin.width
          ∧ countPrimExOE pin st (ecp5OStage pin.xdr) = pin.width
          ∧ (oeRegs pin st).length = pin.width)
      ∧ st.insts.length = pin.width * (if pin.xdr = 0 then 1 else 4) := by
  obtain ⟨nm, w, d, x⟩ := pin
  cases d <;> try exact PinDir.noConfusion hd
  cases inv <;> rcases hx with rfl | rfl | rfl | rfl | rfl <;>
    simp [ECP5.get_input_output,
      ECP5.xdrBuffer, negAll_ineg, negAll_oneg, PinDir.hasI,
      PinDir.hasO, PinDir.hasOE, CState.empty, ECP5.get_ireg, ECP5.get_oreg,
      ECP5.get_oereg, ECP5.get_iddr, ECP5.get_iddrx2, ECP5.get_iddr71b,
      ECP5.get_oddr, ECP5.get_oddrx2, ECP5.get_oddr71b, Bind.bind, Except.bind,
      countPrim, countPrimExOE, oeRegs, usesInvertedOE, ecp5IStage, ecp5OStage,
      List.filter_append, List.filter_map, Function.comp_def,
      Pin.xdr_i, Pin.xdr_o, Pin.xdr_t, Pin.xdr_t1, auxSig, Pin.i, Pin.o, Pin.oe,
      Pin.i0, Pin.i1, Pin.i2, Pin.i3, Pin.i4, Pin.i5, Pin.i6,
      Pin.o0, Pin.o1, Pin.o2, Pin.o3, Pin.o4, Pin.o5, Pin.o6] <;>
    try omega

/-- Per-stage instance counts for ECP5 get_diff_input_output: one IO buffer per bit, one register per bit per register stage, and the exact total. -/
theorem ecp5_get_diff_input_output_counts (pin : Pin) (port : Port) (inv : Bool)
    (hd : pin.dir = .io)
    (hx : pin.xdr = 0 ∨ pin.xdr = 1 ∨ pin.xdr = 2 ∨ pin.xdr = 4 ∨ pin.xdr = 7) :
    ∃ st, ECP5.get_diff_input_output pin port inv = .ok st
      ∧ countPrim st "BB" = pin.width
      ∧ (pin.xdr ≠ 0 → countPrim st (ecp5IStage pin.xdr) = pin.width
          ∧ countPrimExOE pin st (ecp5OStage pin.xdr) = pin.width
          ∧ (oeRegs pin st).length = pin.width)
      ∧ st.insts.length = pin.width * (if pin.xdr = 0 then 1 else 4) := by
  obtain ⟨nm, w, d, x⟩ := pin
  cases d <;> try exact PinDir.noConfusion hd
  cases inv <;> rcases hx with rfl | rfl | rfl | rfl | rfl <;>
    simp [ECP5.get_diff_input_output,
      ECP5.xdrBuffer, negAll_ineg, negAll_oneg, PinDir.hasI,
      PinDir.hasO, PinDir.hasOE, CState.empty, ECP5.get_ireg, ECP5.get_oreg,
      ECP5.get_oereg, ECP5.get_iddr, ECP5.get_iddrx2, ECP5.get_iddr71b,
      ECP5.get_oddr, ECP5.get_oddrx2, ECP5.get_oddr71b, Bind.bind, Except.bind,
      countPrim, countPrimExOE, oeRegs, usesInvertedOE, ecp5IStage, ecp5OStage,
      List.filter_append, List.filter_map, Function.comp_def,
      Pin.xdr_i, Pin.xdr_o, Pin.xdr_t, Pin.xdr_t1, auxSig, Pin.i, Pin.o, Pin.oe,
      Pin.i0, Pin.i1, Pin.i2, Pin.i3, Pin.i4, Pin.i5, Pin.i6,
      Pin.o0, Pin.o1, Pin.o2, Pin.o3, Pin.o4, Pin.o5, Pin.o6] <;>
    try omega

/-- Per-stage instance counts for MachXO2/3L get_input: note the tristate-enable stage is a single register, not one per bit. -/
theorem machxo_get_input_counts (pin : Pin) (port : Port) (inv : Bool)
    (hd : pin.dir = .i)
    (hx : pin.xdr = 0 ∨ pin.xdr = 1 ∨ pin.xdr = 2) :
    ∃ st, MachXO.get_input pin port inv = .ok st
      ∧ countPrim st "IB" = pin.width
      ∧ (pin.xdr ≠ 0 → countPrim st (machxoIStage pin.xdr) = pin.width)
      ∧ st.insts.length = pin.width * (if pin.xdr = 0 then 1 else 2) := by
  obtain ⟨nm, w, d, x⟩ := pin
  cases d <;> try exact PinDir.noConfusion hd
  cases inv <;> rcases hx with rfl | rfl | rfl <;>
    simp [MachXO.get_input,
      MachXO.xdrBuffer, negAll_ineg, negAll_oneg, PinDir.hasI,
      PinDir.hasO, PinDir.hasOE, CState.empty, MachXO.get_ireg, MachXO.get_oreg,
      MachXO.get_iddr, MachXO.get_oddr, Bind.bind, Except.bind,
      countPrim, countPrimExOE, oeRegs, usesInvertedOE, machxoIStage, machxoOStage,
      List.filter_append, List.filter_map, Function.comp_def,
      Pin.xdr_i, Pin.xdr_o, Pin.xdr_t, Pin.xdr_t1, auxSig, Pin.i, Pin.o, Pin.oe,
      Pin.i0, Pin.i1, Pin.i2, Pin.i3, Pin.i4, Pin.i5, Pin.i6,
      Pin.o0, Pin.o1, Pin.o2, Pin.o3, Pin.o4, Pin.o5, Pin.o6] <;>
    try omega

/-- Per-stage instance counts for MachXO2/3L get_diff_input: note the tristate-enable stage is a single register, not one per bit. -/
theorem machxo_get_diff_input_counts (pin : Pin) (port : Port) (inv : Bool)
    (hd : pin.dir = .i)
    (hx : pin.xdr = 0 ∨ pin.xdr = 1 ∨ pin.xdr = 2) :
    ∃ st, MachXO.get_diff_input pin port inv = .ok st
      ∧ countPrim st "IB" = pin.width
      ∧ (pin.xdr ≠ 0 → countPrim st (machxoIStage pin.xdr) = pin.width)
      ∧ st.insts.length = pin.width * (if pin.xdr = 0 then 1 else 2) := by
  obtain ⟨nm, w, d, x⟩ := pin
  cases d <;> try exact PinDir.noConfusion hd
  cases inv <;> rcases hx with rfl | rfl | rfl <;>
    simp [MachXO.get_diff_input,
      MachXO.xdrBuffer, negAll_ineg, negAll_oneg, PinDir.hasI,
      PinDir.hasO, PinDir.hasOE, CState.empty, MachXO.get_ireg, MachXO.get_oreg,
      MachXO.get_iddr, MachXO.get_oddr, Bind.bind, Except.bind,
      countPrim, countPrimExOE, oeRegs, usesInvertedOE, machxoIStage, machxoOStage,
      List.filter_append, List.filter_map, Function.comp_def,
      Pin.xdr_i, Pin.xdr_o, Pin.xdr_t, Pin.xdr_t1, auxSig, Pin.i, Pin.o, Pin.oe,
      Pin.i0, Pin.i1, Pin.i2, Pin.i3, Pin.i4, Pin.i5, Pin.i6,
      Pin.o0, Pin.o1, Pin.o2, Pin.o3, Pin.o4, Pin.o5, Pin.o6] <;>
    try omega

/-- Per-stage instance counts for MachXO2/3L get_output: note the tristate-enable stage is a single register, not one per bit. -/
theorem machxo_get_output_counts (pin : Pin) (port : Port) (inv : Bool)
    (hd : pin.dir = .o)
    (hx : pin.xdr = 0 ∨ pin.xdr = 1 ∨ pin.xdr = 2) :
    ∃ st, MachXO.get_output pin port inv = .ok st
      ∧ countPrim st "OB" = pin.width
      ∧ (pin.xdr ≠ 0 → countPrim st (machxoOStage pin.xdr) = pin.width)
      ∧ st.insts.length = pin.width * (if pin.xdr = 0 then 1 else 2) := by
  obtain ⟨nm, w, d, x⟩ := pin
  cases d <;> try exact PinDir.noConfusion hd
  cases inv <;> rcases hx with rfl | rfl | rfl <;>
    simp [MachXO.get_output,
      MachXO.xdrBuffer, negAll_ineg, negAll_oneg, PinDir.hasI,
      PinDir.hasO, PinDir.hasOE, CState.empty, MachXO.get_ireg, MachXO.get_oreg,
      MachXO.get_iddr, MachXO.get_oddr, Bind.bind, Except.bind,
      countPrim, countPrimExOE, oeRegs, usesInvertedOE, machxoIStage, machxoOStage,
      List.filter_append, List.filter_map, Function.comp_def,
      Pin.xdr_i, Pin.xdr_o, Pin.xdr_t, Pin.xdr_t1, auxSig, Pin.i, Pin.o, Pin.oe,
      Pin.i0, Pin.i1, Pin.i2, Pin.i3, Pin.i4, Pin.i5, Pin.i6,
      Pin.o0, Pin.o1, Pin.o2, Pin.o3, Pin.o4, Pin.o5, Pin.o6] <;>
    try omega

/-- Per-stage instance counts for MachXO2/3L get_diff_output: note the tristate-enable stage is a single register, not one per bit. -/
theorem machxo_get_diff_output_counts (pin : Pin) (port : Port) (inv : Bool)
    (hd : pin.dir = .o)
    (hx : pin.xdr = 0 ∨ pin.xdr = 1 ∨ pin.xdr = 2) :
    ∃ st, MachXO.get_diff_output pin port inv = .ok st
      ∧ countPrim st "OB" = pin.width
      ∧ (pin.xdr ≠ 0 → countPrim st (machxoOStage pin.xdr) = pin.width)
      ∧ st.insts.length = pin.width * (if pin.xdr = 0 then 1 else 2) := by
  obtain ⟨nm, w, d, x⟩ := pin
  cases d <;> try exact PinDir.noConfusion hd
  cases inv <;> rcases hx with rfl | rfl | rfl <;>
    simp [MachXO.get_diff_output,
      MachXO.xdrBuffer, negAll_ineg, negAll_oneg, PinDir.hasI,
      PinDir.hasO, PinDir.hasOE, CState.empty, MachXO.get_ireg, MachXO.get_oreg,
      MachXO.get_iddr, MachXO.get_oddr, Bind.bind, Except.bind,
      countPrim, countPrimExOE, oeRegs, usesInvertedOE, machxoIStage, machxoOStage,
      List.filter_append, List.filter_map, Function.comp_def,
      Pin.xdr_i, Pin.xdr_o, Pin.xdr_t, Pin.xdr_t1, auxSig, Pin.i, Pin.o, Pin.oe,
      Pin.i0, Pin.i1, Pin.i2, Pin.i3, Pin.i4, Pin.i5, Pin.i6,
      Pin.o0, Pin.o1, Pin.o2, Pin.o3, Pin.o4, Pin.o5, Pin.o6] <;>
    try omega

/-- Per-stage instance counts for MachXO2/3L get_tristate: note the tristate-enable stage is a single register, not one per bit. -/
theorem machxo_get_tristate_counts (pin : Pin) (port : Port) (inv : Bool)
    (hd : pin.dir = .oe)
    (hx : pin.xdr = 0 ∨ pin.xdr = 1 ∨ pin.xdr = 2) :
    ∃ st, MachXO.get_tristate pin port inv = .ok st
      ∧ countPrim st "OBZ" = pin.width
      ∧ (pin.xdr ≠ 0 → countPrimExOE pin st (machxoOStage pin.xdr) = pin.width
          ∧ (oeRegs pin st).length = 1)
      ∧ st.insts.length = (if pin.xdr = 0 then pin.width else 2 * pin.width + 1) := by
  obtain ⟨nm, w, d, x⟩ := pin
  cases d <;> try exact PinDir.noConfusion hd
  cases inv <;> rcases hx with rfl | rfl | rfl <;>
    simp [MachXO.get_tristate,
      MachXO.xdrBuffer, negAll_ineg, negAll_oneg, PinDir.hasI,
      PinDir.hasO, PinDir.hasOE, CState.empty, MachXO.get_ireg, MachXO.get_oreg,
      MachXO.get_iddr, MachXO.get_oddr, Bind.bind, Except.bind,
      countPrim, countPrimExOE, oeRegs, usesInvertedOE, machxoIStage, machxoOStage,
      List.filter_append, List.filter_map, Function.comp_def,
      Pin.xdr_i, Pin.xdr_o, Pin.xdr_t, Pin.xdr_t1, auxSig, Pin.i, Pin.o, Pin.oe,
      Pin.i0, Pin.i1, Pin.i2, Pin.i3, Pin.i4, Pin.i5, Pin.i6,
      Pin.o0, Pin.o1, Pin.o2, Pin.o3, Pin.o4, Pin.o5, Pin.o6] <;>
    try omega

/-- Per-stage instance counts for MachXO2/3L get_diff_tristate: note the tristate-enable stage is a single register, not one per bit. -/
theorem machxo_get_diff_tristate_counts (pin : Pin) (port : Port) (inv : Bool)
    (hd : pin.dir = .oe)
    (hx : pin.xdr = 0 ∨ pin.xdr = 1 ∨ pin.xdr = 2) :
    ∃ st, MachXO.get_diff_tristate pin port inv = .ok st
      ∧ countPrim st "OBZ" = pin.width
      ∧ (pin.xdr ≠ 0 → countPrimExOE pin st (machxoOStage pin.xdr) = pin.width
          ∧ (oeRegs pin st).length = 1)
      ∧ st.insts.length = (if pin.xdr = 0 then pin.width else 2 * pin.width + 1) := by
  obtain ⟨nm, w, d, x⟩ := pin
  cases d <;> try exact PinDir.noConfusion hd
  cases inv <;> rcases hx with rfl | rfl | rfl <;>
    simp [MachXO.get_diff_tristate,
      MachXO.xdrBuffer, negAll_ineg, negAll_oneg, PinDir.hasI,
      PinDir.hasO, PinDir.hasOE, CState.empty, MachXO.get_ireg, MachXO.get_oreg,
      MachXO.get_iddr, MachXO.get_oddr, Bind.bind, Except.bind,
      countPrim, countPrimExOE, oeRegs, usesInvertedOE, machxoIStage, machxoOStage,
      List.filter_append, List.filter_map, Function.comp_def,
      Pin.xdr_i, Pin.xdr_o, Pin.xdr_t, Pin.xdr_t1, auxSig, Pin.i, Pin.o, Pin.oe,
      Pin.i0, Pin.i1, Pin.i2, Pin.i3, Pin.i4, Pin.i5, Pin.i6,
      Pin.o0, Pin.o1, Pin.o2, Pin.o3, Pin.o4, Pin.o5, Pin.o6] <;>
    try omega

/-- Per-stage instance counts for MachXO2/3L get_input_output: note the tristate-enable stage is a single register, not one per bit. -/
theorem machxo_get_input_output_counts (pin : Pin) (port : Port) (inv : Bool)
    (hd : pin.dir = .io)
    (hx : pin.xdr = 0 ∨ pin.xdr = 1 ∨ pin.xdr = 2) :
    ∃ st, MachXO.get_input_output pin port inv = .ok st
      ∧ countPrim st "BB" = pin.width
      ∧ (pin.xdr ≠ 0 → countPrim st (machxoIStage pin.xdr) = pin.width
          ∧ countPrimExOE pin st (machxoOStage pin.xdr) = pin.width
          ∧ (oeRegs pin st).length = 1)
      ∧ st.insts.length = (if pin.xdr = 0 then pin.width else 3 * pin.width + 1) := by
  obtain ⟨nm, w, d, x⟩ := pin
  cases d <;> try exact PinDir.noConfusion hd
  cases inv <;> rcases hx with rfl | rfl | rfl <;>
    simp [MachXO.get_input_output,
      MachXO.xdrBuffer, negAll_ineg, negAll_oneg, PinDir.hasI,
      PinDir.hasO, PinDir.hasOE, CState.empty, MachXO.get_ireg, MachXO.get_oreg,
      MachXO.get_iddr, MachXO.get_oddr, Bind.bind, Except.bind,
      countPrim, countPrimExOE, oeRegs, usesInvertedOE, machxoIStage, machxoOStage,
      List.filter_append, List.filter_map, Function.comp_def,
      Pin.xdr_i, Pin.xdr_o, Pin.xdr_t, Pin.xdr_t1, auxSig, Pin.i, Pin.o, Pin.oe,
      Pin.i0, Pin.i1, Pin.i2, Pin.i3, Pin.i4, Pin.i5, Pin.i6,
      Pin.o0, Pin.o1, Pin.o2, Pin.o3, Pin.o4, Pin.o5, Pin.o6] <;>
    try omega

/-- Per-stage instance counts for MachXO2/3L get_diff_input_output: note the tristate-enable stage is a single register, not one per bit. -/
theorem machxo_get_diff_input_output_counts (pin : Pin) (port : Port) (inv : Bool)
    (hd : pin.dir = .io)
    (hx : pin.xdr = 0 ∨ pin.xdr = 1 ∨ pin.xdr = 2) :
    ∃ st, MachXO.get_diff_input_output pin port inv = .ok st
      ∧ countPrim st "BB" = pin.width
      ∧ (pin.xdr ≠ 0 → countPrim st (machxoIStage pin.xdr) = pin.width
          ∧ countPrimExOE pin st (machxoOStage pin.xdr) = pin.width
          ∧ (oeRegs pin st).length = 1)
      ∧ st.insts.length = (if pin.xdr = 0 then pin.width else 3 * pin.width + 1) := by
  obtain ⟨nm, w, d, x⟩ := pin
  cases d <;> try exact PinDir.noConfusion hd
  cases inv <;> rcases hx with rfl | rfl | rfl <;>
    simp [MachXO.get_diff_input_output,
      MachXO.xdrBuffer, negAll_ineg, negAll_oneg, PinDir.hasI,
      PinDir.hasO, PinDir.hasOE, CState.empty, MachXO.get_ireg, MachXO.get_oreg,
      MachXO.get_iddr, MachXO.get_oddr, Bind.bind, Except.bind,
      countPrim, countPrimExOE, oeRegs, usesInvertedOE, machxoIStage, machxoOStage,
      List.filter_append, List.filter_map, Function.comp_def,
      Pin.xdr_i, Pin.xdr_o, Pin.xdr_t, Pin.xdr_t1, auxSig, Pin.i, Pin.o, Pin.oe,
      Pin.i0, Pin.i1, Pin.i2, Pin.i3, Pin.i4, Pin.i5, Pin.i6,
      Pin.o0, Pin.o1, Pin.o2, Pin.o3, Pin.o4, Pin.o5, Pin.o6] <;>
    try omega

/-- C10: with default_clk OSCG, create_missing_domain for the sync domain
fails unless oscg_div holds an integer between 2 and 128 inclusive, in
which case exactly one OSCG oscillator is instantiated with that divider
and the default clock constraint reports 310e6 divided by the divider. -/
theorem C10_oscg (cfg : ECP5.OscgConfig) (hc : cfg.default_clk = some "OSCG") :
    (cfg.oscg_div = none →
      ECP5.create_missing_domain cfg "sync" =
        .error "OSCG divider (oscg_div) must be an integer between 2 and 128")
    ∧ (∀ d : Int, cfg.oscg_div = some d → d < 2 ∨ d > 128 →
      ECP5.create_missing_domain cfg "sync" =
        .error ("OSCG divider (oscg_div) must be an integer between 2 and 128, not "
          ++ toString d))
    ∧ (∀ d : Int, cfg.oscg_div = some d → 2 ≤ d → d ≤ 128 →
      ∃ m, ECP5.create_missing_domain cfg "sync" = .ok (some m)
        ∧ m.insts.filter (fun ins => ins.prim == "OSCG") =
            [⟨"OSCG", [("p_DIV", .int d)], [("o_OSC", .sig ⟨"clk_i", 1⟩)]⟩]
        ∧ ECP5.default_clk_constraint cfg = some (.ok ((310000000 : ℚ) / (d : ℚ)))) := by
  obtain ⟨dc, dr, dv⟩ := cfg
  simp only [ECP5.OscgConfig.default_clk] at hc
  subst hc
  refine ⟨?_, ?_, ?_⟩
  · rintro rfl
    rfl
  · rintro d rfl hd
    simp [ECP5.create_missing_domain, hd, Bind.bind, Except.bind]
  · rintro d rfl h2 h128
    have hno : ¬(d < 2 ∨ d > 128) := by omega
    simp [ECP5.create_missing_domain, ECP5.default_clk_constraint, hno, addInst,
      CState.empty, Bind.bind, Except.bind]

/-- Witness for C10: divider 1 is rejected with the value in the message,
divider 4 yields one OSCG instance and a 77.5 MHz constraint. -/
theorem C10_oscg_witness :
    ECP5.create_missing_domain ⟨some "OSCG", none, some 1⟩ "sync" =
      .error "OSCG divider (oscg_div) must be an integer between 2 and 128, not 1"
    ∧ (ECP5.create_missing_domain ⟨some "OSCG", none, some 4⟩ "sync").map
        (fun om => om.map (fun m => m.insts.filter (fun ins => ins.prim == "OSCG"))) =
      .ok (some [⟨"OSCG", [("p_DIV", .int 4)], [("o_OSC", .sig ⟨"clk_i", 1⟩)]⟩])
    ∧ ECP5.default_clk_constraint ⟨some "OSCG", none, some 4⟩ =
      some (.ok ((310000000 : ℚ) / ((4 : Int) : ℚ))) := by
  have herr := ((C10_oscg ⟨some "OSCG", none, some 1⟩ rfl).2.1) 1 rfl (by norm_num)
  obtain ⟨m, hok, hf, hc⟩ :=
    ((C10_oscg ⟨some "OSCG", none, some 4⟩ rfl).2.2) 4 rfl (by norm_num) (by norm_num)
  refine ⟨herr, ?_, hc⟩
  rw [hok]
  simp only [Except.map, Option.map]
  simp [hf]


/-- C1 counterexample: on MachXO2/3L a two-bit output-enable pin at gear
1 gets a tristate-enable handle of width 1, not the declared pin width. -/
theorem C1_counterexample :
    ∃ r m, MachXO.xdrBuffer CState.empty ⟨"x", 2, .oe, 1⟩ false false = .ok (r, m)
      ∧ ∃ e, r.2.2 = some e ∧ e.width = 1 ∧ e.width ≠ (⟨"x", 2, .oe, 1⟩ : Pin).width :=
  ⟨_, _, rfl, _, rfl, rfl, by decide⟩

/-- C1 amended: on ECP5 every buffer operation instantiates exactly one
vendor primitive per bit per pipeline stage at every gear in 0, 1, 2, 4,
7 and the three handles the gear buffer returns all carry the declared
pin width; on MachXO2/3L the same per-bit-per-stage shape holds for the
input and output paths at the supported gears 0, 1, 2, but the
tristate-enable handle has width 1 driven by a single register shared by
all bits, and gears 4 and 7 fail its bare assertion. -/
theorem C1_amended (pin : Pin) (port : Port) (inv ii oi : Bool) :
    ((pin.xdr = 0 ∨ pin.xdr = 1 ∨ pin.xdr = 2 ∨ pin.xdr = 4 ∨ pin.xdr = 7) →
      (ECP5.xdrBuffer CState.empty pin ii oi).map
          (fun rm => (rm.1.1.map Expr.width, rm.1.2.1.map Expr.width,
            rm.1.2.2.map Expr.width)) =
        .ok (if pin.dir.hasI then some pin.width else none,
             if pin.dir.hasO then some pin.width else none,
             if pin.dir.hasOE then some pin.width else none))
    ∧ ((pin.xdr = 0 ∨ pin.xdr = 1 ∨ pin.xdr = 2) →
      (MachXO.xdrBuffer CState.empty pin ii oi).map
          (fun rm => (rm.1.1.map Expr.width, rm.1.2.1.map Expr.width,
            rm.1.2.2.map Expr.width)) =
        .ok (if pin.dir.hasI then some pin.width else none,
             if pin.dir.hasO then some pin.width else none,
             if pin.dir.hasOE then some 1 else none))
    ∧ ((pin.xdr = 4 ∨ pin.xdr = 7) →
      MachXO.xdrBuffer CState.empty pin ii oi = .error "AssertionError")
    ∧ (pin.dir = .i → (pin.xdr = 0 ∨ pin.xdr = 1 ∨ pin.xdr = 2 ∨ pin.xdr = 4 ∨ pin.xdr = 7) →
      ∃ st, ECP5.get_input pin port inv = .ok st
        ∧ countPrim st "IB" = pin.width
        ∧ (pin.xdr ≠ 0 → countPrim st (ecp5IStage pin.xdr) = pin.width)
        ∧ st.insts.length = pin.width * (if pin.xdr = 0 then 1 else 2))
    ∧ (pin.dir = .i → (pin.xdr = 0 ∨ pin.xdr = 1 ∨ pin.xdr = 2 ∨ pin.xdr = 4 ∨ pin.xdr = 7) →
      ∃ st, ECP5.get_diff_input pin port inv = .ok st
        ∧ countPrim st "IB" = pin.width
        ∧ (pin.xdr ≠ 0 → countPrim st (ecp5IStage pin.xdr) = pin.width)
        ∧ st.insts.length = pin.width * (if pin.xdr = 0 then 1 else 2))
    ∧ (pin.dir = .o → (pin.xdr = 0 ∨ pin.xdr = 1 ∨ pin.xdr = 2 ∨ pin.xdr = 4 ∨ pin.xdr = 7) →
      ∃ st, ECP5.get_output pin port inv = .ok st
        ∧ countPrim st "OB" = pin.width
        ∧ (pin.xdr ≠ 0 → countPrim st (ecp5OStage pin.xdr) = pin.width)
        ∧ st.insts.length = pin.width * (if pin.xdr = 0 then 1 else 2))
    ∧ (pin.dir = .o → (pin.xdr = 0 ∨ pin.xdr = 1 ∨ pin.xdr = 2 ∨ pin.xdr = 4 ∨ pin.xdr = 7) →
      ∃ st, ECP5.get_diff_output pin port inv = .ok st
        ∧ countPrim st "OB" = pin.width
        ∧ (pin.xdr ≠ 0 → countPrim st (ecp5OStage pin.xdr) = pin.width)
        ∧ st.insts.length = pin.width * (if pin.xdr = 0 then 1 else 2))
    ∧ (pin.dir = .oe → (pin.xdr = 0 ∨ pin.xdr = 1 ∨ pin.xdr = 2 ∨ pin.xdr = 4 ∨ pin.xdr = 7) →
      ∃ st, ECP5.get_tristate pin port inv = .ok st
        ∧ countPrim st "OBZ" = pin.width
        ∧ (pin.xdr ≠ 0 → countPrimExOE pin st (ecp5OStage pin.xdr) = pin.width
            ∧ (oeRegs pin st).length = pin.width)
        ∧ st.insts.length = pin.width * (if pin.xdr = 0 then 1 else 3))
    ∧ (pin.dir = .oe → (pin.xdr = 0 ∨ pin.xdr = 1 ∨ pin.xdr = 2 ∨ pin.xdr = 4 ∨ pin.xdr = 7) →
      ∃ st, ECP5.get_diff_tristate pin port inv = .ok st
        ∧ countPrim st "OBZ" = pin.width
        ∧ (pin.xdr ≠ 0 → countPrimExOE pin st (ecp5OStage pin.xdr) = pin.width
            ∧ (oeRegs pin st).length = pin.width)
        ∧ st.insts.length = pin.width * (if pin.xdr = 0 then 1 else 3))
    ∧ (pin.dir = .io → (pin.xdr = 0 ∨ pin.xdr = 1 ∨ pin.xdr = 2 ∨ pin.xdr = 4 ∨ pin.xdr = 7) →
      ∃ st, ECP5.get_input_output pin port inv = .ok st
        ∧ countPrim st "BB" = pin.width
        ∧ (pin.xdr ≠ 0 → countPrim st (ecp5IStage pin.xdr) = pin.width
            ∧ countPrimExOE pin st (ecp5OStage pin.xdr) = pin.width
            ∧ (oeRegs pin st).length = pin.width)
        ∧ st.insts.length = pin.width * (if pin.xdr = 0 then 1 else 4))
    ∧ (pin.dir = .io → (pin.xdr = 0 ∨ pin.xdr = 1 ∨ pin.xdr = 2 ∨ pin.xdr = 4 ∨ pin.xdr = 7) →
      ∃ st, ECP5.get_diff_input_output pin port inv = .ok st
        ∧ countPrim st "BB" = pin.width
        ∧ (pin.xdr ≠ 0 → countPrim st (ecp5IStage pin.xdr) = pin.width
            ∧ countPrimExOE pin st (ecp5OStage pin.xdr) = pin.width
            ∧ (oeRegs pin st).length = pin.width)
        ∧ st.insts.length = pin.width * (if pin.xdr = 0 then 1 else 4))
    ∧ (pin.dir = .i → (pin.xdr = 0 ∨ pin.xdr = 1 ∨ pin.xdr = 2) →
      ∃ st, MachXO.get_input pin port inv = .ok st
        ∧ countPrim st "IB" = pin.width
        ∧ (pin.xdr ≠ 0 → countPrim st (machxoIStage pin.xdr) = pin.width)
        ∧ st.insts.length = pin.width * (if pin.xdr = 0 then 1 else 2))
    ∧ (pin.dir = .i → (pin.xdr = 0 ∨ pin.xdr = 1 ∨ pin.xdr = 2) →
      ∃ st, MachXO.get_diff_input pin port inv = .ok st
        ∧ countPrim st "IB" = pin.width
        ∧ (pin.xdr ≠ 0 → countPrim st (machxoIStage pin.xdr) = pin.width)
        ∧ st.insts.length = pin.width * (if pin.xdr = 0 then 1 else 2))
    ∧ (pin.dir = .o → (pin.xdr = 0 ∨ pin.xdr = 1 ∨ pin.xdr = 2) →
      ∃ st, MachXO.get_output pin port inv = .ok st
        ∧ countPrim st "OB" = pin.width
        ∧ (pin.xdr ≠ 0 → countPrim st (machxoOStage pin.xdr) = pin.width)
        ∧ st.insts.length = pin.width * (if pin.xdr = 0 then 1 else 2))
    ∧ (pin.dir = .o → (pin.xdr = 0 ∨ pin.xdr = 1 ∨ pin.xdr = 2) →
      ∃ st, MachXO.get_diff_output pin port inv = .ok st
        ∧ countPrim st "OB" = pin.width
        ∧ (pin.xdr ≠ 0 → countPrim st (machxoOStage pin.xdr) = pin.width)
        ∧ st.insts.length = pin.width * (if pin.xdr = 0 then 1 else 2))
    ∧ (pin.dir = .oe → (pin.xdr = 0 ∨ pin.xdr = 1 ∨ pin.xdr = 2) →
      ∃ st, MachXO.get_tristate pin port inv = .ok st
        ∧ countPrim st "OBZ" = pin.width
        ∧ (pin.xdr ≠ 0 → countPrimExOE pin st (machxoOStage pin.xdr) = pin.width
            ∧ (oeRegs pin st).length = 1)
        ∧ st.insts.length = (if pin.xdr = 0 then pin.width else 2 * pin.width + 1))
    ∧ (pin.dir = .oe → (pin.xdr = 0 ∨ pin.xdr = 1 ∨ pin.xdr = 2) →
      ∃ st, MachXO.get_diff_tristate pin port inv = .ok st
        ∧ countPrim st "OBZ" = pin.width
        ∧ (pin.xdr ≠ 0 → countPrimExOE pin st (machxoOStage pin.xdr) = pin.width
            ∧ (oeRegs pin st).length = 1)
        ∧ st.insts.length = (if pin.xdr = 0 then pin.width else 2 * pin.width + 1))
    ∧ (pin.dir = .io → (pin.xdr = 0 ∨ pin.xdr = 1 ∨ pin.xdr = 2) →
      ∃ st, MachXO.get_input_output pin port inv = .ok st
        ∧ countPrim st "BB" = pin.width
        ∧ (pin.xdr ≠ 0 → countPrim st (machxoIStage pin.xdr) = pin.width
            ∧ countPrimExOE pin st (machxoOStage pin.xdr) = pin.width
            ∧ (oeRegs pin st).length = 1)
        ∧ st.insts.length = (if pin.xdr = 0 then pin.width else 3 * pin.width + 1))
    ∧ (pin.dir = .io → (pin.xdr = 0 ∨ pin.xdr = 1 ∨ pin.xdr = 2) →
      ∃ st, MachXO.get_diff_input_output pin port inv = .ok st
        ∧ countPrim st "BB" = pin.width
        ∧ (pin.xdr ≠ 0 → countPrim st (machxoIStage pin.xdr) = pin.width
            ∧ countPrimExOE pin st (machxoOStage pin.xdr) = pin.width
            ∧ (oeRegs pin st).length = 1)
        ∧ st.insts.length = (if pin.xdr = 0 then pin.width else 3 * pin.width + 1)) :=
  ⟨fun hx => ecp5_buffer_widths pin ii oi hx,
   fun hx => machxo_buffer_widths pin ii oi hx,
   fun hx => machxo_buffer_gear47 pin CState.empty ii oi hx,
   fun hd hx => ecp5_get_input_counts pin port inv hd hx,
   fun hd hx => ecp5_get_diff_input_counts pin port inv hd hx,
   fun hd hx => ecp5_get_output_counts pin port inv hd hx,
   fun hd hx => ecp5_get_diff_output_counts pin port inv hd hx,
   fun hd hx => ecp5_get_tristate_counts pin port inv hd hx,
   fun hd hx => ecp5_get_diff_tristate_counts pin port inv hd hx,
   fun hd hx => ecp5_get_input_output_counts pin port inv hd hx,
   fun hd hx => ecp5_get_diff_input_output_counts pin port inv hd hx,
   fun hd hx => machxo_get_input_counts pin port inv hd hx,
   fun hd hx => machxo_get_diff_input_counts pin port inv hd hx,
   fun hd hx => machxo_get_output_counts pin port inv hd hx,
   fun hd hx => machxo_get_diff_output_counts pin port inv hd hx,
   fun hd hx => machxo_get_tristate_counts pin port inv hd hx,
   fun hd hx => machxo_get_diff_tristate_counts pin port inv hd hx,
   fun hd hx => machxo_get_input_output_counts pin port inv hd hx,
   fun hd hx => machxo_get_diff_input_output_counts pin port inv hd hx⟩

/-- Witness for C1 amended: a one-bit io pin at gear 2 on ECP5 (four
stages, one BB buffer) and a two-bit oe pin at gear 1 on MachXO2/3L (two
OBZ, one shared enable register, five instances). -/
theorem C1_amended_witness :
    (ECP5.get_input_output ⟨"x", 1, .io, 2⟩ ⟨⟨"pio", 1⟩, ⟨"pp", 1⟩, ⟨"pn", 1⟩⟩ false).map
        (fun st => (countPrim st "BB", st.insts.length)) = .ok (1, 4)
    ∧ (MachXO.get_tristate ⟨"x", 2, .oe, 1⟩ ⟨⟨"pio", 1⟩, ⟨"pp", 1⟩, ⟨"pn", 1⟩⟩ false).map
        (fun st => (countPrim st "OBZ", (oeRegs ⟨"x", 2, .oe, 1⟩ st).length,
          st.insts.length)) = .ok (2, 1, 5) := by
  constructor
  · obtain ⟨st1, he1, hbb, -, hlen⟩ :=
      (C1_amended ⟨"x", 1, .io, 2⟩ ⟨⟨"pio", 1⟩, ⟨"pp", 1⟩, ⟨"pn", 1⟩⟩ false false
        false).2.2.2.2.2.2.2.2.2.1 rfl (by decide)
    rw [he1]
    simp only [Except.map]
    simp [hbb, hlen]
  · obtain ⟨st2, he2, hobz, hcond, hlen⟩ :=
      (C1_amended ⟨"x", 2, .oe, 1⟩ ⟨⟨"pio", 1⟩, ⟨"pp", 1⟩, ⟨"pn", 1⟩⟩ false false
        false).2.2.2.2.2.2.2.2.2.2.2.2.2.2.2.1 rfl (by decide)
    obtain ⟨-, hoe⟩ := hcond (by decide)
    rw [he2]
    simp only [Except.map]
    simp [hobz, hoe, hlen]

end Spec2Proof
